import Mathlib

/-!
Shallow embedding of the Jarvis / Mission Control governance kernel
(`src/types/governance`, `src/audit/AuditTrail.ts`,
`src/governance/EnforcementHooks.ts`, `src/governance/ApprovalWorkflow.ts`,
`src/core/MissionControl.ts`) together with proofs about the claims of the
specification.

Modelling conventions:
* String ids generated at runtime (`uuidv4()`, `approval-…`, `L2-…`) are
  modelled as natural numbers drawn from per-component counters; caller
  supplied ids (agents, approvers) are natural numbers as well.
* `Date` values are modelled as natural-number timestamps; every operation
  reads a `clock` field of the state.  `setTimeout` callbacks
  (`scheduleApprovalTimeout`, `scheduleEscalation`) never fire inside the
  modelled operations, mirroring a run in which no timer has expired, and are
  therefore elided.
* The cryptographic hash (`CryptoJS.SHA256/384/512` over a JSON dump of a
  fixed record of fields) is idealized as an injective function: the digest
  is the canonical hash input itself, represented by the inductive type
  `GHash` whose constructors mirror exactly the field lists serialized by
  `computeGenesisHash`, `computeEntryHash` and `computeImmutableProof`.
* Event listeners are replaced by an event trace: every `emitEvent` call
  appends the emitted event to the `events` list of the composite state,
  which is what a handler registered through `MissionControl.onEvent` (it
  subscribes to all four components) would observe.
* The single executor call site (`MissionControl.execute`, the
  `await executor(...)` line) additionally appends the argument it passes to
  the `executorInvocations` trace, so that "the executor was (not) invoked"
  is expressible.
-/

namespace Jarvis

/-! ## Governance types (`src/types/governance.ts`, reconstructed from its
test `governance.test.ts` and the `ACTION_CLEARANCE_MAP` usage) -/

/-- ClearanceLevel enumeration: `L0 < L1 < L2`. -/
inductive ClearanceLevel where
  | L0 | L1 | L2
deriving DecidableEq, Repr

/-- Rank of a clearance level: its index in the array
`[ClearanceLevel.L0, ClearanceLevel.L1, ClearanceLevel.L2]` used by
`EnforcementEngine.hasSufficientClearance`. -/
def ClearanceLevel.rank : ClearanceLevel → Nat
  | .L0 => 0
  | .L1 => 1
  | .L2 => 2

/-- String value of a clearance level (the TS enum values are
`'L0' | 'L1' | 'L2'`), used in interpolated error messages. -/
def ClearanceLevel.str : ClearanceLevel → String
  | .L0 => "L0"
  | .L1 => "L1"
  | .L2 => "L2"

/-- ActionType enumeration (thirteen action kinds). -/
inductive ActionType where
  | READ_PUBLIC | QUERY_STATUS | LIST_RESOURCES
  | MODIFY_CONFIG | DEPLOY_SERVICE | MANAGE_SECRETS | EXECUTE_COMMAND
  | DESTROY_RESOURCE | MODIFY_PRODUCTION | TRANSFER_FUNDS
  | DELETE_AUDIT_LOG | ESCALATE_PRIVILEGES | EXECUTE_ARBITRARY
deriving DecidableEq, Repr

/-- ACTION_CLEARANCE_MAP: the exhaustive build-time mapping from action kind
to required clearance, as asserted field-by-field by `governance.test.ts`. -/
def ACTION_CLEARANCE_MAP : ActionType → ClearanceLevel
  | .READ_PUBLIC => .L0
  | .QUERY_STATUS => .L0
  | .LIST_RESOURCES => .L0
  | .MODIFY_CONFIG => .L1
  | .DEPLOY_SERVICE => .L1
  | .MANAGE_SECRETS => .L1
  | .EXECUTE_COMMAND => .L1
  | .DESTROY_RESOURCE => .L2
  | .MODIFY_PRODUCTION => .L2
  | .TRANSFER_FUNDS => .L2
  | .DELETE_AUDIT_LOG => .L2
  | .ESCALATE_PRIVILEGES => .L2
  | .EXECUTE_ARBITRARY => .L2

/-- ApprovalStatus enumeration. -/
inductive ApprovalStatus where
  | PENDING | APPROVED | REJECTED | EXPIRED | REVOKED
deriving DecidableEq, Repr

/-- String value of an approval status (the TS enum values), used in
interpolated error messages such as `Cannot revoke request with status …`. -/
def ApprovalStatus.str : ApprovalStatus → String
  | .PENDING => "PENDING"
  | .APPROVED => "APPROVED"
  | .REJECTED => "REJECTED"
  | .EXPIRED => "EXPIRED"
  | .REVOKED => "REVOKED"

/-- GovernanceEventType enumeration. -/
inductive GovernanceEventType where
  | ACTION_REQUESTED | ACTION_APPROVED | ACTION_REJECTED
  | ACTION_EXECUTED | ACTION_FAILED
  | CLEARANCE_VIOLATION | APPROVAL_TIMEOUT | AUDIT_TAMPER_DETECTED
deriving DecidableEq, Repr

/-- Event severity values (`'info' | 'warning' | 'critical'`). -/
inductive Severity where
  | info | warning | critical
deriving DecidableEq, Repr

/-- Hash algorithm configuration (`'SHA-256' | 'SHA-384' | 'SHA-512'`). -/
inductive HashAlgo where
  | sha256 | sha384 | sha512
deriving DecidableEq, Repr

/-- GovernanceConfig (full enumeration of `GovernanceConfig` fields used by
the core; `emergencyOverrideKey` is unused by the code and omitted). -/
structure GovernanceConfig where
  l2ApprovalTimeoutMs : Nat
  requiredApprovers : Nat
  autoRejectOnTimeout : Bool
  auditRetentionDays : Nat
  hashAlgorithm : HashAlgo
  enableImmutableAudit : Bool
deriving DecidableEq, Repr

/-- JavaScript runtime value universe for opaque payloads (`unknown`). -/
inductive JsValue where
  | null
  | undef
  | bool (b : Bool)
  | num (n : Int)
  | str (s : String)
  | obj (fields : List (String × JsValue))
deriving Repr

/-- JavaScript truthiness on the modelled value universe (`NaN` is not
modelled): `null`, `undefined`, `false`, `0` and `""` are falsy, every
object is truthy. -/
def JsValue.truthy : JsValue → Bool
  | .null => false
  | .undef => false
  | .bool b => b
  | .num n => n != 0
  | .str s => s ≠ ""
  | .obj _ => true

/-- AgentIdentity: opaque id, display name, clearance, session id, optional
public key. -/
structure AgentIdentity where
  id : Nat
  name : String
  clearanceLevel : ClearanceLevel
  sessionId : Nat
  publicKey : Option String := none

/-- ActionRequest as built by `MissionControl.execute`. -/
structure ActionRequest where
  id : Nat
  actionType : ActionType
  agentId : Nat
  timestamp : Nat
  payload : JsValue
  signature : Option String := none
  correlationId : Option Nat := none

/-- ActionResult. -/
structure ActionResult where
  success : Bool
  requestId : Nat
  timestamp : Nat
  output : Option JsValue := none
  error : Option String := none
  executedBy : Option Nat := none

/-- Evidence hash input: both `EnforcementEngine.createApprovalRequest` and
`ApprovalWorkflow.generateEvidenceHash` serialize exactly these fields
(action id, action kind, agent id, timestamp, digest of the payload); the
payload digest is idealized as the payload itself. -/
structure EvidenceData where
  actionId : Nat
  actionType : ActionType
  agentId : Nat
  timestamp : Nat
  payloadDigest : JsValue

/-- ApprovalRequest. -/
structure ApprovalRequest where
  id : Nat
  actionRequestId : Nat
  status : ApprovalStatus
  requestedBy : AgentIdentity
  requestedAt : Nat
  approvers : List Nat
  approvedBy : Option Nat := none
  approvedAt : Option Nat := none
  rejectedBy : Option Nat := none
  rejectedAt : Option Nat := none
  rejectionReason : Option String := none
  expiresAt : Nat
  evidenceHash : EvidenceData

/-- ApprovalDecision. -/
structure ApprovalDecision where
  approverId : Nat
  approved : Bool
  timestamp : Nat
  signature : Option String := none
  reason : Option String := none

/-- ApproverIdentity. -/
structure ApproverIdentity where
  id : Nat
  name : String
  clearanceLevel : ClearanceLevel
  email : Option String := none
  publicKey : Option String := none

/-! ## Hash model

`AuditTrail.hash` applies the configured SHA algorithm to a JSON string with
a fixed field order and returns lowercase hex.  The digest is idealized as
the canonical serialization input itself, making the hash injective
(collision-resistance idealization); `GHash.raw` stands for an arbitrary
out-of-band string written into a hash field by a tamperer. -/

/-- Audit-trail digests: one constructor per serialization site
(`computeGenesisHash`, `computeEntryHash`, `computeImmutableProof`), whose
arguments are exactly the serialized fields in source order. -/
inductive GHash where
  | genesis (algorithm : HashAlgo) (retention : Nat) (created : Nat)
  | entryDigest (id : Nat) (timestamp : Nat) (sequenceNumber : Nat)
      (actionRequestId : Nat) (actionResultSuccess : Bool) (agentId : Nat)
      (previousHash : GHash)
  | proofDigest (entryHash : GHash) (previousHash : GHash)
      (sequenceNumber : Nat) (timestamp : Nat)
  | raw (s : String)
deriving DecidableEq, Repr

/-! ## Event trace -/

/-- Event payloads, one constructor per `emitEvent` call site of the four
components (timer callbacks are elided, see the file comment). -/
inductive EventPayload where
  | clearanceViolation (actionId : Nat) (actionType : ActionType)
      (agentId : Nat) (required : ClearanceLevel) (actual : ClearanceLevel)
  | engineActionRequested (approvalId : Nat) (actionId : Nat)
      (actionType : ActionType) (expiresAt : Nat)
  | engineActionFailed (actionId : Nat) (error : String)
  | engineActionExecuted (actionId : Nat) (actionType : ActionType)
  | auditRecorded (entryId : Nat) (actionType : ActionType)
  | tamper (entryId : Nat) (sequenceNumber : Nat) (reason : String)
  | workflowActionRequested (approvalId : Nat) (actionId : Nat)
      (actionType : ActionType) (requesterId : Nat) (approvers : List Nat)
      (expiresAt : Nat)
  | actionApproved (approvalId : Nat) (actionId : Nat) (approvedBy : Nat)
      (decisionCount : Nat)
  | actionRejected (approvalId : Nat) (actionId : Nat) (rejectedBy : Nat)
      (reason : String)
  | actionRevoked (approvalId : Nat) (actionId : Nat) (revokedBy : String)
      (reason : String)
  | emergencyStopped (reason : String) (revokedApprovals : Nat)
deriving DecidableEq, Repr

/-- GovernanceEvent. -/
structure GEvent where
  type : GovernanceEventType
  timestamp : Nat
  payload : EventPayload
  severity : Severity
deriving DecidableEq, Repr

/-! ## Association-list helpers, modelling JavaScript `Map` (insertion
ordered; `set` on an existing key updates in place) and `Set`. -/

/-- Lookup in an insertion-ordered map. -/
def alistGet? {α : Type} (l : List (Nat × α)) (k : Nat) : Option α :=
  match l.find? (fun p => p.1 == k) with
  | some p => some p.2
  | none => none

/-- `Map.set`: replace the value at `k` keeping its position, or append. -/
def alistSet {α : Type} (l : List (Nat × α)) (k : Nat) (v : α) :
    List (Nat × α) :=
  if l.any (fun p => p.1 == k) then
    l.map (fun p => if p.1 == k then (k, v) else p)
  else
    l ++ [(k, v)]

/-- `Map.delete`. -/
def alistDelete {α : Type} (l : List (Nat × α)) (k : Nat) :
    List (Nat × α) :=
  l.filter (fun p => p.1 != k)

/-- `Set.add` (no-op when the element is present). -/
def natSetAdd (l : List Nat) (k : Nat) : List Nat :=
  if l.contains k then l else l ++ [k]

/-! ## Audit Trail (`src/audit/AuditTrail.ts`) -/

/-- ChainEntry: `AuditEntry` plus the private `chainIndex` field. -/
structure ChainEntry where
  id : Nat
  timestamp : Nat
  sequenceNumber : Nat
  actionRequest : ActionRequest
  actionResult : ActionResult
  agentIdentity : AgentIdentity
  approvalRequest : Option ApprovalRequest
  previousHash : GHash
  entryHash : GHash
  immutableProof : GHash
  chainIndex : Nat

/-- Private state of the `AuditTrail` class; `nextEntryId` models the
`uuidv4()` supply for entry ids. -/
structure AuditState where
  entries : List ChainEntry
  sequenceCounter : Nat
  genesisHash : GHash
  nextEntryId : Nat

/-- AuditTrail constructor: `computeGenesisHash` serializes the algorithm,
the retention days and `Date.now()`. -/
def AuditState.init (config : GovernanceConfig) (createdAt : Nat) :
    AuditState :=
  { entries := []
    sequenceCounter := 0
    genesisHash := .genesis config.hashAlgorithm config.auditRetentionDays
      createdAt
    nextEntryId := 0 }

/-- `computeEntryHash`: digest over
`{id, timestamp, sequenceNumber, actionRequestId, actionResultSuccess,
agentId, previousHash}`. -/
def computeEntryHash (e : ChainEntry) : GHash :=
  .entryDigest e.id e.timestamp e.sequenceNumber e.actionRequest.id
    e.actionResult.success e.agentIdentity.id e.previousHash

/-- `computeImmutableProof`: digest over
`{entryHash, previousHash, sequenceNumber, timestamp}`. -/
def computeImmutableProof (e : ChainEntry) : GHash :=
  .proofDigest e.entryHash e.previousHash e.sequenceNumber e.timestamp

/-- `AuditTrail.record`, returning the new state, the created entry and the
event emitted (`ACTION_EXECUTED` on success, `ACTION_FAILED` otherwise).
`now` is the `new Date()` reading of the call. -/
def auditRecord (a : AuditState) (now : Nat) (actionRequest : ActionRequest)
    (actionResult : ActionResult) (agentIdentity : AgentIdentity)
    (approvalRequest : Option ApprovalRequest) :
    AuditState × ChainEntry × GEvent :=
  let sequenceNumber := a.sequenceCounter + 1
  let previousHash :=
    match a.entries.getLast? with
    | some previousEntry => previousEntry.entryHash
    | none => a.genesisHash
  let base : ChainEntry :=
    { id := a.nextEntryId
      timestamp := now
      sequenceNumber := sequenceNumber
      actionRequest := actionRequest
      actionResult := actionResult
      agentIdentity := agentIdentity
      approvalRequest := approvalRequest
      previousHash := previousHash
      entryHash := .raw ""
      immutableProof := .raw ""
      chainIndex := a.entries.length }
  let withHash := { base with entryHash := computeEntryHash base }
  let entry := { withHash with
    immutableProof := computeImmutableProof withHash }
  let event : GEvent :=
    { type := if actionResult.success then .ACTION_EXECUTED else
        .ACTION_FAILED
      timestamp := now
      payload := .auditRecorded entry.id actionRequest.actionType
      severity := if actionResult.success then .info else .warning }
  ({ a with
      entries := a.entries ++ [entry]
      sequenceCounter := sequenceNumber
      nextEntryId := a.nextEntryId + 1 },
   entry, event)

/-- Tamper event emitted by `verifyChain` on a mismatch. -/
def tamperEvent (now : Nat) (e : ChainEntry) (reason : String) : GEvent :=
  { type := .AUDIT_TAMPER_DETECTED
    timestamp := now
    payload := .tamper e.id e.sequenceNumber reason
    severity := .critical }

/-- Loop body of `AuditTrail.verifyChain`: walk the entries carrying the
expected previous hash (the stored `entryHash` of the preceding entry, the
genesis hash for the first).  Returns the boolean result and the list of
`AUDIT_TAMPER_DETECTED` events emitted (at most one: the walk stops at the
first mismatch). -/
def verifyChainAux (now : Nat) (expected : GHash) :
    List ChainEntry → Bool × List GEvent
  | [] => (true, [])
  | e :: rest =>
    if e.previousHash ≠ expected then
      (false, [tamperEvent now e "PREVIOUS_HASH_MISMATCH"])
    else if e.entryHash ≠ computeEntryHash e then
      (false, [tamperEvent now e "ENTRY_HASH_MISMATCH"])
    else if e.immutableProof ≠ computeImmutableProof e then
      (false, [tamperEvent now e "PROOF_MISMATCH"])
    else
      verifyChainAux now e.entryHash rest

/-- `AuditTrail.verifyChain`. -/
def verifyChain (a : AuditState) (now : Nat) : Bool × List GEvent :=
  verifyChainAux now a.genesisHash a.entries

/-- `AuditTrail.getLatestAnchor`: last entry hash, or genesis hash when the
trail is empty. -/
def latestAnchor (a : AuditState) : GHash :=
  match a.entries.getLast? with
  | some lastEntry => lastEntry.entryHash
  | none => a.genesisHash

/-- Input of one `record` call (the arguments plus the `new Date()` reading
of that call). -/
structure RecordInput where
  now : Nat
  actionRequest : ActionRequest
  actionResult : ActionResult
  agentIdentity : AgentIdentity
  approvalRequest : Option ApprovalRequest

/-- Fold a sequence of `record` calls over an audit trail. -/
def runRecords (a : AuditState) (inputs : List RecordInput) : AuditState :=
  inputs.foldl
    (fun acc i =>
      (auditRecord acc i.now i.actionRequest i.actionResult i.agentIdentity
        i.approvalRequest).1)
    a

/-- Expected previous hash for an entry appended after `es`, starting from
`expected` (the genesis hash at the head of the walk). -/
def lastHashFrom (expected : GHash) (es : List ChainEntry) : GHash :=
  match es.getLast? with
  | some lastEntry => lastEntry.entryHash
  | none => expected

/-- Chain invariants of §8 of the specification, bundled: a valid
verification walk, dense sequence numbers starting at 1, the genesis hash
as the first entry's `previousHash`, and `previousHash`/`entryHash`
linkage, plus the bookkeeping facts the induction needs. -/
def AuditInv (a : AuditState) : Prop :=
  (∀ now, verifyChain a now = (true, [])) ∧
  a.sequenceCounter = a.entries.length ∧
  (∀ i e, a.entries[i]? = some e → e.sequenceNumber = i + 1) ∧
  (∀ e, a.entries[0]? = some e → e.previousHash = a.genesisHash) ∧
  (∀ i e f, a.entries[i]? = some e → a.entries[i+1]? = some f →
    f.previousHash = e.entryHash)

/-! ## Concrete fixtures used by witnesses and counterexamples -/

/-- Default governance configuration values
(`DEFAULT_GOVERNANCE_CONFIG`). -/
def cfg0 : GovernanceConfig :=
  { l2ApprovalTimeoutMs := 300000
    requiredApprovers := 1
    autoRejectOnTimeout := true
    auditRetentionDays := 365
    hashAlgorithm := .sha256
    enableImmutableAudit := true }

/-- Sample L1 agent. -/
def sampleAgent : AgentIdentity :=
  { id := 1, name := "Test Agent", clearanceLevel := .L1, sessionId := 11 }

/-- Sample record-call input (an L0 action). -/
def sampleRecInput (now reqId : Nat) (payload : JsValue) : RecordInput :=
  { now := now
    actionRequest :=
      { id := reqId, actionType := .READ_PUBLIC, agentId := 1
        timestamp := now, payload := payload }
    actionResult :=
      { success := true, requestId := reqId, timestamp := now
        output := some (.obj [("result", .str "ok")]) }
    agentIdentity := sampleAgent
    approvalRequest := none }

/-- Two-entry trail of scenario S6: two L0 entries recorded on a fresh
trail. -/
def twoEntryTrail : AuditState :=
  runRecords (AuditState.init cfg0 0)
    [sampleRecInput 3 100 (.str "p1"), sampleRecInput 4 101 (.str "p2")]

/-! ## Claim C4 -/

/-- Out-of-band mutation of the first entry's `actionRequest.payload`
(a field that `computeEntryHash` does not cover). -/
def tamperFirstPayload (a : AuditState) : AuditState :=
  { a with entries :=
      match a.entries with
      | [] => []
      | e :: rest =>
        { e with actionRequest :=
            { e.actionRequest with payload := JsValue.str "tampered" } }
          :: rest }

/-- Out-of-band replacement of the first entry's `entryHash` (the S6
mutation). -/
def setFirstEntryHash (a : AuditState) (h : GHash) : AuditState :=
  { a with entries :=
      match a.entries with
      | [] => []
      | e :: rest => { e with entryHash := h } :: rest }

/-- Projection of a payload to its string content, used to compare payloads
without decidable equality on `JsValue`. -/
def payloadStr? : JsValue → Option String
  | .str s => some s
  | _ => none

/-- Inhabited instances used to extract the concrete first entry of the
fixture trail. -/
instance : Inhabited GHash := ⟨.raw ""⟩

instance : Inhabited JsValue := ⟨.null⟩

instance : Inhabited AgentIdentity :=
  ⟨{ id := 0, name := "", clearanceLevel := .L0, sessionId := 0 }⟩

instance : Inhabited ActionRequest :=
  ⟨{ id := 0, actionType := .READ_PUBLIC, agentId := 0, timestamp := 0
     payload := .null }⟩

instance : Inhabited ActionResult :=
  ⟨{ success := true, requestId := 0, timestamp := 0 }⟩

instance : Inhabited ChainEntry :=
  ⟨{ id := 0, timestamp := 0, sequenceNumber := 0
     actionRequest := default, actionResult := default
     agentIdentity := default, approvalRequest := none
     previousHash := default, entryHash := default
     immutableProof := default, chainIndex := 0 }⟩

/-- First entry of the two-entry fixture trail. -/
def twoEntryFirst : ChainEntry := twoEntryTrail.entries.headI

/-! ## Enforcement Engine (`src/governance/EnforcementHooks.ts`) -/

/-- EnforcementResult. -/
structure EnforcementResult where
  allowed : Bool
  requiredClearance : ClearanceLevel
  agentClearance : ClearanceLevel
  requiresApproval : Bool
  approvalRequest : Option ApprovalRequest := none
  reason : Option String := none

/-- PreExecutionResult.  The TS interface omits `reason`, but the
implementation returns a `reason` property on every interception; the
runtime object is modelled. -/
structure PreExecutionResult where
  proceed : Bool
  enforcementResult : EnforcementResult
  intercepted : Option Bool := none
  reason : Option String := none
  modifiedPayload : Option JsValue := none

/-- PostExecutionResult. -/
structure PostExecutionResult where
  logged : Bool
  cleanupNeeded : Bool
  cleanupActions : Option (List String) := none

/-- ExecutionContext of `MissionControl`. -/
structure ExecutionContext where
  actionId : Nat
  agentId : Nat
  startedAt : Nat
  clearanceLevel : ClearanceLevel
  approvalId : Option Nat := none

/-- ApprovalWorkflowConfig. -/
structure ApprovalWorkflowConfig where
  minApprovers : Nat
  maxApprovers : Nat
  requireUnanimous : Bool
  escalationTimeoutMs : Nat
  notifyChannels : List String
  requireMFA : Bool

/-- Defaults applied by the `ApprovalWorkflow` constructor (and always in
effect under `MissionControl`, which passes no workflow configuration). -/
def defaultWorkflowConfig : ApprovalWorkflowConfig :=
  { minApprovers := 1
    maxApprovers := 3
    requireUnanimous := false
    escalationTimeoutMs := 300000
    notifyChannels := ["email", "slack"]
    requireMFA := true }

/-- Private state of the `EnforcementEngine` class; `nextApprovalId` models
the `approval-…` id supply. -/
structure EngineState where
  approvalQueue : List (Nat × ApprovalRequest) := []
  executedActions : List Nat := []
  nextApprovalId : Nat := 0

/-- Private state of the `ApprovalWorkflow` class; `nextApprovalId` models
the `L2-…` id supply. -/
structure WorkflowState where
  approvedApprovers : List (Nat × ApproverIdentity) := []
  pendingApprovals : List (Nat × ApprovalRequest) := []
  approvalDecisions : List (Nat × List ApprovalDecision) := []
  nextApprovalId : Nat := 0

/-- Composite state of one `MissionControl` instance and its three owned
subcomponents, together with the observation traces (`events`,
`executorInvocations`) and the id/time supplies. -/
structure MCState where
  config : GovernanceConfig
  workflowConfig : ApprovalWorkflowConfig
  audit : AuditState
  engine : EngineState
  workflow : WorkflowState
  activeContexts : List (Nat × ExecutionContext)
  events : List GEvent
  executorInvocations : List JsValue
  nextUuid : Nat
  clock : Nat

/-- `new MissionControl(config)` (with an explicit workflow configuration
so that the standalone `ApprovalWorkflow` claims can vary it;
`MissionControl` itself always passes the defaults). -/
def MCState.init (config : GovernanceConfig)
    (wcfg : ApprovalWorkflowConfig) (createdAt : Nat) : MCState :=
  { config := config
    workflowConfig := wcfg
    audit := AuditState.init config createdAt
    engine := {}
    workflow := {}
    activeContexts := []
    events := []
    executorInvocations := []
    nextUuid := 0
    clock := createdAt }

/-- Append an emitted event to the observation trace. -/
def emit (s : MCState) (e : GEvent) : MCState :=
  { s with events := s.events ++ [e] }

/-- `hasSufficientClearance`: the agent's index in
`[L0, L1, L2]` is at least the required level's index. -/
def hasSufficientClearance (agentLevel requiredLevel : ClearanceLevel) :
    Bool :=
  decide (requiredLevel.rank ≤ agentLevel.rank)

/-- `createApprovalRequest` (L2 actions): allocate an approval id,
timestamp, compute expiry and evidence hash, queue the request, emit
`ACTION_REQUESTED`.  The `scheduleApprovalTimeout` timer is elided. -/
def createApprovalRequest (s : MCState) (req : ActionRequest)
    (agent : AgentIdentity) : MCState × ApprovalRequest :=
  let approvalId := s.engine.nextApprovalId
  let now := s.clock
  let expiresAt := now + s.config.l2ApprovalTimeoutMs
  let approvalRequest : ApprovalRequest :=
    { id := approvalId
      actionRequestId := req.id
      status := .PENDING
      requestedBy := agent
      requestedAt := now
      approvers := []
      expiresAt := expiresAt
      evidenceHash :=
        { actionId := req.id, actionType := req.actionType
          agentId := agent.id, timestamp := now
          payloadDigest := req.payload } }
  let s1 := { s with engine := { s.engine with
    approvalQueue := alistSet s.engine.approvalQueue approvalId
      approvalRequest
    nextApprovalId := approvalId + 1 } }
  let s2 := emit s1
    { type := .ACTION_REQUESTED
      timestamp := now
      payload := .engineActionRequested approvalId req.id req.actionType
        expiresAt
      severity := .info }
  (s2, approvalRequest)

/-- `EnforcementEngine.validateAction`.  The source checks the violation
case first and falls through; here the sufficient-clearance case is the
`then` branch, with identical case coverage. -/
def validateAction (s : MCState) (req : ActionRequest)
    (agent : AgentIdentity) : MCState × EnforcementResult :=
  let requiredClearance := ACTION_CLEARANCE_MAP req.actionType
  let agentClearance := agent.clearanceLevel
  if hasSufficientClearance agentClearance requiredClearance then
    if requiredClearance = .L2 then
      match createApprovalRequest s req agent with
      | (s1, approvalRequest) =>
        (s1, { allowed := true
               requiredClearance := requiredClearance
               agentClearance := agentClearance
               requiresApproval := true
               approvalRequest := some approvalRequest
               reason := some "L2 action requires human approval" })
    else
      (s, { allowed := true
            requiredClearance := requiredClearance
            agentClearance := agentClearance
            requiresApproval := false })
  else
    let s1 := emit s
      { type := .CLEARANCE_VIOLATION
        timestamp := s.clock
        payload := .clearanceViolation req.id req.actionType agent.id
          requiredClearance agentClearance
        severity := .critical }
    (s1, { allowed := false
           requiredClearance := requiredClearance
           agentClearance := agentClearance
           requiresApproval := false
           reason := some ("Insufficient clearance: requires " ++
             requiredClearance.str ++ ", agent has " ++
             agentClearance.str) })

/-- Fields stripped by `sanitizePayload`. -/
def dangerousFields : List String := ["__proto__", "constructor", "prototype"]

/-- `delete obj[k]` on a spread copy of the payload object. -/
def deleteField (fields : List (String × JsValue)) (k : String) :
    List (String × JsValue) :=
  fields.filter (fun kv => kv.1 ≠ k)

/-- `EnforcementEngine.sanitizePayload`: strip the dangerous keys of a
key-value payload; non-objects (and `null`) pass through.  The
`actionType` argument is unused, as in the source. -/
def sanitizePayload (payload : JsValue) (_actionType : ActionType) :
    JsValue :=
  match payload with
  | .obj fields => .obj (dangerousFields.foldl deleteField fields)
  | p => p

/-- `EnforcementEngine.preExecute`. -/
def preExecute (s : MCState) (req : ActionRequest)
    (agent : AgentIdentity) : MCState × PreExecutionResult :=
  match validateAction s req agent with
  | (s1, enforcementResult) =>
    if enforcementResult.allowed = false then
      (s1, { proceed := false, enforcementResult := enforcementResult
             intercepted := some true
             reason := enforcementResult.reason })
    else if s1.engine.executedActions.contains req.id then
      (s1, { proceed := false, enforcementResult := enforcementResult
             intercepted := some true
             reason := some "Action already executed (idempotency check)" })
    else
      let proceedResult : PreExecutionResult :=
        { proceed := true, enforcementResult := enforcementResult
          modifiedPayload := some (sanitizePayload req.payload
            req.actionType) }
      if enforcementResult.requiresApproval then
        match enforcementResult.approvalRequest with
        | some approval =>
          if approval.status = .PENDING then
            (s1, { proceed := false, enforcementResult := enforcementResult
                   intercepted := some true
                   reason := some "Waiting for L2 approval" })
          else if approval.status = .REJECTED then
            (s1, { proceed := false, enforcementResult := enforcementResult
                   intercepted := some true
                   reason := some ("Approval rejected: " ++
                     (approval.rejectionReason.getD "undefined")) })
          else if approval.status = .EXPIRED then
            (s1, { proceed := false, enforcementResult := enforcementResult
                   intercepted := some true
                   reason := some "Approval request expired" })
          else
            (s1, proceedResult)
        | none => (s1, proceedResult)
      else
        (s1, proceedResult)

/-- `EnforcementEngine.postExecute`: mark the action-request id executed,
emit `ACTION_FAILED` or `ACTION_EXECUTED`, report cleanup actions on
error. -/
def postExecute (s : MCState) (req : ActionRequest)
    (error : Option String) : MCState × PostExecutionResult :=
  let s1 := { s with engine := { s.engine with
    executedActions := natSetAdd s.engine.executedActions req.id } }
  match error with
  | some msg =>
    let s2 := emit s1
      { type := .ACTION_FAILED, timestamp := s1.clock
        payload := .engineActionFailed req.id msg
        severity := .warning }
    (s2, { logged := true, cleanupNeeded := true
           cleanupActions :=
             some ["ROLLBACK_PENDING_CHANGES", "RELEASE_RESOURCES"] })
  | none =>
    let s2 := emit s1
      { type := .ACTION_EXECUTED, timestamp := s1.clock
        payload := .engineActionExecuted req.id req.actionType
        severity := .info }
    (s2, { logged := true, cleanupNeeded := false })

/-! ## Approval Workflow (`src/governance/ApprovalWorkflow.ts`) -/

/-- `ApprovalWorkflow.registerApprover`: non-L2 approvers are refused. -/
def registerApprover (s : MCState) (approver : ApproverIdentity) :
    MCState × Except String Unit :=
  if approver.clearanceLevel ≠ .L2 then
    (s, .error ("Approver must have L2 clearance, has " ++
      approver.clearanceLevel.str))
  else
    ({ s with workflow := { s.workflow with
        approvedApprovers := alistSet s.workflow.approvedApprovers
          approver.id approver } },
     .ok ())

/-- `ApprovalWorkflow.unregisterApprover`. -/
def unregisterApprover (s : MCState) (approverId : Nat) : MCState :=
  { s with workflow := { s.workflow with
      approvedApprovers := alistDelete s.workflow.approvedApprovers
        approverId } }

/-- `ApprovalWorkflow.selectApprovers`: first
`min(minApprovers, registry.size)` approvers in registry insertion order;
throws when the registry is empty. -/
def selectApprovers (s : MCState) : Except String (List ApproverIdentity) :=
  let allApprovers := s.workflow.approvedApprovers.map (fun p => p.2)
  if allApprovers.length = 0 then
    .error "No L2 approvers registered"
  else
    .ok (allApprovers.take
      (min s.workflowConfig.minApprovers allApprovers.length))

/-- `ApprovalWorkflow.submitForApproval`.  `notifyApprovers` only logs and
`scheduleEscalation` is a timer; both are elided. -/
def submitForApproval (s : MCState) (req : ActionRequest)
    (requester : AgentIdentity) : MCState × Except String ApprovalRequest :=
  match selectApprovers s with
  | .error e => (s, .error e)
  | .ok selected =>
    let approvalId := s.workflow.nextApprovalId
    let now := s.clock
    let expiresAt := now + s.config.l2ApprovalTimeoutMs
    let approvalRequest : ApprovalRequest :=
      { id := approvalId
        actionRequestId := req.id
        status := .PENDING
        requestedBy := requester
        requestedAt := now
        approvers := selected.map (fun a => a.id)
        expiresAt := expiresAt
        evidenceHash :=
          { actionId := req.id, actionType := req.actionType
            agentId := requester.id, timestamp := now
            payloadDigest := req.payload } }
    let s1 := { s with workflow := { s.workflow with
      pendingApprovals := alistSet s.workflow.pendingApprovals approvalId
        approvalRequest
      approvalDecisions := alistSet s.workflow.approvalDecisions
        approvalId []
      nextApprovalId := approvalId + 1 } }
    let s2 := emit s1
      { type := .ACTION_REQUESTED
        timestamp := now
        payload := .workflowActionRequested approvalId req.id
          req.actionType requester.id (selected.map (fun a => a.id))
          expiresAt
        severity := .info }
    (s2, .ok approvalRequest)

/-- `ApprovalWorkflow.checkApprovalThreshold`: unanimous mode compares the
affirmative-decision count with the chosen-approver set size, otherwise
with `minApprovers`.  (The source reads the approval through a non-null
assertion; the unreachable `none` case is `false`.) -/
def checkApprovalThreshold (wcfg : ApprovalWorkflowConfig)
    (w : WorkflowState) (approvalId : Nat) : Bool :=
  let decisions := (alistGet? w.approvalDecisions approvalId).getD []
  let approvals := decisions.filter (fun d => d.approved)
  if wcfg.requireUnanimous then
    match alistGet? w.pendingApprovals approvalId with
    | some approval => approvals.length == approval.approvers.length
    | none => false
  else
    decide (wcfg.minApprovers ≤ approvals.length)

/-- `ApprovalWorkflow.approve`: five guards, then record the (always
affirmative) decision and re-evaluate the threshold. -/
def approveW (s : MCState) (approvalId approverId : Nat)
    (signature reason : Option String) :
    MCState × Except String ApprovalRequest :=
  match alistGet? s.workflow.pendingApprovals approvalId with
  | none =>
    (s, .error ("Approval request " ++ toString approvalId ++
      " not found"))
  | some approval =>
    if approval.status ≠ .PENDING then
      (s, .error ("Approval request " ++ toString approvalId ++
        " is not pending (" ++ approval.status.str ++ ")"))
    else if ¬ approval.approvers.contains approverId then
      (s, .error ("Approver " ++ toString approverId ++
        " is not authorized for this request"))
    else
      match alistGet? s.workflow.approvedApprovers approverId with
      | none =>
        (s, .error ("Approver " ++ toString approverId ++
          " is not registered"))
      | some _ =>
        let decisions :=
          (alistGet? s.workflow.approvalDecisions approvalId).getD []
        if decisions.any (fun d => d.approverId == approverId) then
          (s, .error ("Approver " ++ toString approverId ++
            " has already submitted a decision"))
        else
          let decisions2 := decisions ++
            [{ approverId := approverId, approved := true
               timestamp := s.clock, signature := signature
               reason := reason }]
          let s1 := { s with workflow := { s.workflow with
            approvalDecisions := alistSet s.workflow.approvalDecisions
              approvalId decisions2 } }
          if checkApprovalThreshold s1.workflowConfig s1.workflow
              approvalId then
            let approval2 := { approval with
              status := .APPROVED
              approvedBy := some approverId
              approvedAt := some s1.clock }
            let s2 := { s1 with workflow := { s1.workflow with
              pendingApprovals := alistSet s1.workflow.pendingApprovals
                approvalId approval2 } }
            let s3 := emit s2
              { type := .ACTION_APPROVED, timestamp := s2.clock
                payload := .actionApproved approvalId
                  approval.actionRequestId approverId decisions2.length
                severity := .info }
            (s3, .ok approval2)
          else
            (s1, .ok approval)

/-- `ApprovalWorkflow.reject`: a single rejection is final. -/
def rejectW (s : MCState) (approvalId approverId : Nat)
    (rejectionReason : String) (_signature : Option String) :
    MCState × Except String ApprovalRequest :=
  match alistGet? s.workflow.pendingApprovals approvalId with
  | none =>
    (s, .error ("Approval request " ++ toString approvalId ++
      " not found"))
  | some approval =>
    if approval.status ≠ .PENDING then
      (s, .error ("Approval request " ++ toString approvalId ++
        " is not pending"))
    else
      match alistGet? s.workflow.approvedApprovers approverId with
      | none =>
        (s, .error ("Approver " ++ toString approverId ++
          " is not registered"))
      | some _ =>
        let approval2 := { approval with
          status := .REJECTED
          rejectedBy := some approverId
          rejectedAt := some s.clock
          rejectionReason := some rejectionReason }
        let s1 := { s with workflow := { s.workflow with
          pendingApprovals := alistSet s.workflow.pendingApprovals
            approvalId approval2 } }
        let s2 := emit s1
          { type := .ACTION_REJECTED, timestamp := s1.clock
            payload := .actionRejected approvalId
              approval.actionRequestId approverId rejectionReason
            severity := .warning }
        (s2, .ok approval2)

/-- `ApprovalWorkflow.revoke`: guarded on `APPROVED` status — revoking a
pending request throws. -/
def revokeW (s : MCState) (approvalId : Nat) (revokedBy : String)
    (reason : String) : MCState × Except String ApprovalRequest :=
  match alistGet? s.workflow.pendingApprovals approvalId with
  | none =>
    (s, .error ("Approval request " ++ toString approvalId ++
      " not found"))
  | some approval =>
    if approval.status ≠ .APPROVED then
      (s, .error ("Cannot revoke request with status " ++
        approval.status.str))
    else
      let approval2 := { approval with status := .REVOKED }
      let s1 := { s with workflow := { s.workflow with
        pendingApprovals := alistSet s.workflow.pendingApprovals
          approvalId approval2 } }
      let s2 := emit s1
        { type := .ACTION_REJECTED, timestamp := s1.clock
          payload := .actionRevoked approvalId approval.actionRequestId
            revokedBy reason
          severity := .critical }
      (s2, .ok approval2)

/-- `ApprovalWorkflow.getPendingApprovals`: all map values whose status is
`PENDING`. -/
def getPendingApprovalsW (s : MCState) : List ApprovalRequest :=
  (s.workflow.pendingApprovals.map (fun p => p.2)).filter
    (fun a => a.status == .PENDING)

/-! ## Mission Control (`src/core/MissionControl.ts`) -/

/-- Result of the caller-supplied executor (a resolved or rejected
promise). -/
inductive ExecutorResult where
  | ok (v : JsValue)
  | err (msg : String)

/-- Outcome of `MissionControl.execute`: the success tuple, the pending
reference, or a thrown error.  `code` is the `MissionControlError` code
(`none` for a plain `Error` propagated unwrapped). -/
inductive ExecuteOutcome where
  | success (result : JsValue) (auditEntry : ChainEntry)
  | approvalPending (approvalId : Nat)
  | thrown (message : String) (code : Option String)
      (auditEntry : Option ChainEntry)

/-- `preResult.modifiedPayload || payload`: JavaScript `||` falls back on a
falsy left operand. -/
def jsOrPayload (modified : Option JsValue) (payload : JsValue) : JsValue :=
  match modified with
  | some v => if v.truthy then v else payload
  | none => payload

/-- `AuditTrail.record` lifted to the composite state (the emitted event
goes to the observation trace). -/
def auditRecordMC (s : MCState) (req : ActionRequest) (res : ActionResult)
    (ag : AgentIdentity) (apr : Option ApprovalRequest) :
    MCState × ChainEntry :=
  match auditRecord s.audit s.clock req res ag apr with
  | (a, entry, event) =>
    ({ s with audit := a, events := s.events ++ [event] }, entry)

/-- `MissionControl.execute`: allocate a fresh action request (two
`uuidv4()` draws), run `preExecute`, then either return the pending
reference, record the rejection and throw `ENFORCEMENT_REJECTED`, or run
the executor and record the result (the `finally` block's return/throw
supersedes the `catch` rethrow). -/
def execute (s : MCState) (actionType : ActionType)
    (agent : AgentIdentity) (payload : JsValue)
    (executor : JsValue → ExecutorResult) : MCState × ExecuteOutcome :=
  let req : ActionRequest :=
    { id := s.nextUuid
      actionType := actionType
      agentId := agent.id
      timestamp := s.clock
      payload := payload
      correlationId := some (s.nextUuid + 1) }
  let s0 := { s with nextUuid := s.nextUuid + 2 }
  match preExecute s0 req agent with
  | (s1, pre) =>
    if pre.proceed = false then
      if pre.enforcementResult.requiresApproval &&
          (match pre.enforcementResult.approvalRequest with
           | some ap => ap.status == .PENDING
           | none => false) then
        match submitForApproval s1 req agent with
        | (s2, .ok approval) => (s2, .approvalPending approval.id)
        | (s2, .error e) => (s2, .thrown e none none)
      else
        let actionResult : ActionResult :=
          { success := false
            requestId := req.id
            timestamp := s1.clock
            error :=
              some ((pre.enforcementResult.reason).getD
                "Enforcement rejected") }
        match auditRecordMC s1 req actionResult agent
            pre.enforcementResult.approvalRequest with
        | (s2, entry) =>
          (s2, .thrown
            ((pre.enforcementResult.reason).getD
              "Action rejected by governance")
            (some "ENFORCEMENT_REJECTED") (some entry))
    else
      let context : ExecutionContext :=
        { actionId := req.id
          agentId := agent.id
          startedAt := s1.clock
          clearanceLevel := pre.enforcementResult.requiredClearance
          approvalId :=
            (pre.enforcementResult.approvalRequest).map (fun a => a.id) }
      let s2 := { s1 with
        activeContexts := alistSet s1.activeContexts req.id context }
      let arg := jsOrPayload pre.modifiedPayload payload
      let s3 := { s2 with
        executorInvocations := s2.executorInvocations ++ [arg] }
      match executor arg with
      | .ok v =>
        let s4 := { s3 with
          activeContexts := alistDelete s3.activeContexts req.id }
        let actionResult : ActionResult :=
          { success := true, requestId := req.id, timestamp := s4.clock
            output := some v, executedBy := some agent.id }
        match postExecute s4 req none with
        | (s5, _) =>
          match auditRecordMC s5 req actionResult agent
              pre.enforcementResult.approvalRequest with
          | (s6, entry) => (s6, .success v entry)
      | .err m =>
        let s4 := { s3 with
          activeContexts := alistDelete s3.activeContexts req.id }
        let actionResult : ActionResult :=
          { success := false, requestId := req.id, timestamp := s4.clock
            error := some m, executedBy := some agent.id }
        match postExecute s4 req (some m) with
        | (s5, _) =>
          match auditRecordMC s5 req actionResult agent
              pre.enforcementResult.approvalRequest with
          | (s6, entry) =>
            (s6, .thrown m (some "EXECUTION_FAILED") (some entry))

/-- `MissionControl.approveAction` (delegates to the workflow). -/
def approveAction (s : MCState) (approvalId approverId : Nat)
    (signature reason : Option String) :
    MCState × Except String ApprovalRequest :=
  approveW s approvalId approverId signature reason

/-- `MissionControl.rejectAction` (delegates to the workflow). -/
def rejectAction (s : MCState) (approvalId approverId : Nat)
    (rejectionReason : String) (signature : Option String) :
    MCState × Except String ApprovalRequest :=
  rejectW s approvalId approverId rejectionReason signature

/-- Loop body of `emergencyStop`: revoke each pending approval in turn; a
thrown revocation error aborts the loop and propagates. -/
def revokeAll (reason : String) (s : MCState) :
    List ApprovalRequest → MCState × Except String Unit
  | [] => (s, .ok ())
  | approval :: rest =>
    match revokeW s approval.id "EMERGENCY_STOP" reason with
    | (s1, .ok _) => revokeAll reason s1 rest
    | (s1, .error e) => (s1, .error e)

/-- `MissionControl.emergencyStop`: revoke every pending approval through
the workflow, then emit one composite critical `ACTION_REJECTED` event
carrying the revoked count and the reason. -/
def emergencyStop (s : MCState) (reason : String) :
    MCState × Except String Unit :=
  let pending := getPendingApprovalsW s
  match revokeAll reason s pending with
  | (s1, .error e) => (s1, .error e)
  | (s1, .ok _) =>
    let s2 := emit s1
      { type := .ACTION_REJECTED, timestamp := s1.clock
        payload := .emergencyStopped reason pending.length
        severity := .critical }
    (s2, .ok ())

/-! ## Public operation traces -/

/-- One call of the public `MissionControl` API. -/
inductive MCOp where
  | opExecute (actionType : ActionType) (agent : AgentIdentity)
      (payload : JsValue) (executor : JsValue → ExecutorResult)
  | opApprove (approvalId approverId : Nat)
      (signature reason : Option String)
  | opReject (approvalId approverId : Nat) (reason : String)
      (signature : Option String)
  | opRegisterApprover (approver : ApproverIdentity)
  | opUnregisterApprover (approverId : Nat)
  | opEmergencyStop (reason : String)

/-- State transition of one public call (outcome discarded). -/
def mcStep (s : MCState) : MCOp → MCState
  | .opExecute actionType agent payload executor =>
    (execute s actionType agent payload executor).1
  | .opApprove approvalId approverId signature reason =>
    (approveAction s approvalId approverId signature reason).1
  | .opReject approvalId approverId reason signature =>
    (rejectAction s approvalId approverId reason signature).1
  | .opRegisterApprover approver => (registerApprover s approver).1
  | .opUnregisterApprover approverId => unregisterApprover s approverId
  | .opEmergencyStop reason => (emergencyStop s reason).1

/-- Run a sequence of public calls from a fresh orchestrator. -/
def runOps (config : GovernanceConfig) (wcfg : ApprovalWorkflowConfig)
    (createdAt : Nat) (ops : List MCOp) : MCState :=
  ops.foldl mcStep (MCState.init config wcfg createdAt)

/-! ## Concrete scenario fixtures -/

/-- Sample L2-cleared agent. -/
def l2Agent : AgentIdentity :=
  { id := 1, name := "L2 Agent", clearanceLevel := .L2, sessionId := 9 }

/-- Sample L0-cleared agent. -/
def l0Agent : AgentIdentity :=
  { id := 2, name := "L0 Agent", clearanceLevel := .L0, sessionId := 8 }

/-- Sample registered approver. -/
def approver1 : ApproverIdentity :=
  { id := 7, name := "Test Approver", clearanceLevel := .L2
    email := some "approver@test.com" }

/-- Deterministic executor resolving to `{destroyed: true}`. -/
def okExec : JsValue → ExecutorResult :=
  fun _ => .ok (.obj [("destroyed", .bool true)])

/-- Fresh orchestrator with the default configurations. -/
def mc0 : MCState := MCState.init cfg0 defaultWorkflowConfig 0

/-- Scenario S3, step 0: approver registered. -/
def s3Start : MCState := (registerApprover mc0 approver1).1

/-- Scenario S3, step 1: first L2 `execute`. -/
def s3First : MCState × ExecuteOutcome :=
  execute s3Start .DESTROY_RESOURCE l2Agent
    (.obj [("resourceId", .str "r-1")]) okExec

/-- Scenario S3, step 2: the pending approval (id 0) approved by the
registered approver. -/
def s3Approved : MCState := (approveAction s3First.1 0 7 none none).1

/-- Scenario S3, step 3: second `execute` with the same action kind, agent
and payload. -/
def s3Second : MCState × ExecuteOutcome :=
  execute s3Approved .DESTROY_RESOURCE l2Agent
    (.obj [("resourceId", .str "r-1")]) okExec

/-! ## Claim C2 -/

/-- Scenario S5, submissions: two L2 requests left pending. -/
def s5Two : MCState :=
  (execute
    (execute s3Start .DESTROY_RESOURCE l2Agent (.obj [("id", .num 1)])
      okExec).1
    .TRANSFER_FUNDS l2Agent (.obj [("amount", .num 100)]) okExec).1

/-- Scenario S5, emergency stop. -/
def s5Stop : MCState × Except String Unit := emergencyStop s5Two "incident"

/-! ## Claim C5, counterexample -/

/-- Error code of a thrown `execute` outcome. -/
def thrownCode? : ExecuteOutcome → Option String
  | .thrown _ code _ => code
  | _ => none

/-- Scenario S2: an L0 agent attempts `modify-config`. -/
def s2Run : MCState × ExecuteOutcome :=
  execute mc0 .MODIFY_CONFIG l0Agent (.obj []) okExec

/-! ## Claim C6, counterexample -/

/-- Clearance-violation run of an L2 action kind by an L0 agent. -/
def c6Run : MCState × ExecuteOutcome :=
  execute mc0 .DESTROY_RESOURCE l0Agent (.obj []) okExec

/-- The `CLEARANCE_VIOLATION` event emitted for the request with id
`actionId` and kind `k` by agent `agent` at time `clock`. -/
def cvEvent (clock actionId : Nat) (k : ActionType)
    (agent : AgentIdentity) : GEvent :=
  { type := .CLEARANCE_VIOLATION
    timestamp := clock
    payload := .clearanceViolation actionId k agent.id
      (ACTION_CLEARANCE_MAP k) agent.clearanceLevel
    severity := .critical }

/-- The enforcement result returned on a clearance violation. -/
def cvResult (req : ActionRequest) (agent : AgentIdentity) :
    EnforcementResult :=
  { allowed := false
    requiredClearance := ACTION_CLEARANCE_MAP req.actionType
    agentClearance := agent.clearanceLevel
    requiresApproval := false
    reason := some ("Insufficient clearance: requires " ++
      (ACTION_CLEARANCE_MAP req.actionType).str ++ ", agent has " ++
      agent.clearanceLevel.str) }

/-! ## Claim C5, amended theorem -/

/-- Insufficient-clearance error message. -/
def insuffMsg (k : ActionType) (agent : AgentIdentity) : String :=
  "Insufficient clearance: requires " ++ (ACTION_CLEARANCE_MAP k).str ++
    ", agent has " ++ agent.clearanceLevel.str

/-- Behaviour of `execute` on a clearance violation (the amended C5): the
executor is not invoked, exactly one audit entry is appended — failed, for
this action kind, with the insufficient-clearance error, without approval
reference — one critical `CLEARANCE_VIOLATION` event is emitted (followed
only by the audit trail's own `ACTION_FAILED` record event), and the call
throws the `MissionControlError` with code `ENFORCEMENT_REJECTED` carrying
the appended audit entry. -/
def ClearanceRejection (s : MCState) (k : ActionType)
    (agent : AgentIdentity) (payload : JsValue)
    (executor : JsValue → ExecutorResult) : Prop :=
  ∃ e : ChainEntry,
    (execute s k agent payload executor).1.audit.entries =
      s.audit.entries ++ [e] ∧
    e.actionResult.success = false ∧
    e.actionResult.error = some (insuffMsg k agent) ∧
    e.actionRequest.actionType = k ∧
    e.approvalRequest = none ∧
    (execute s k agent payload executor).2 =
      .thrown (insuffMsg k agent) (some "ENFORCEMENT_REJECTED") (some e) ∧
    (execute s k agent payload executor).1.executorInvocations =
      s.executorInvocations ∧
    (∃ recEv : GEvent,
      (execute s k agent payload executor).1.events =
        s.events ++ [cvEvent s.clock s.nextUuid k agent, recEv] ∧
      recEv.type = .ACTION_FAILED) ∧
    (cvEvent s.clock s.nextUuid k agent).severity = .critical

/-- Request fixture for the idempotency witness. -/
def idemReq : ActionRequest :=
  { id := 5, actionType := .READ_PUBLIC, agentId := 1, timestamp := 0
    payload := .null }

/-- State in which `postExecute` has completed `idemReq`. -/
def idemState : MCState := (postExecute mc0 idemReq none).1

/-! ## Claim C9 -/

/-- JavaScript property read on the modelled key-value payload. -/
def objGet? (fields : List (String × JsValue)) (k : String) :
    Option JsValue :=
  (fields.find? (fun kv => kv.1 == k)).map (fun kv => kv.2)

/-- Request fixture of the sanitization test (an L1 action whose payload
carries `__proto__` and `constructor` keys). -/
def sanReq : ActionRequest :=
  { id := 3, actionType := .MODIFY_CONFIG, agentId := 1, timestamp := 0
    payload := .obj
      [("valid", .str "data"),
       ("__proto__", .obj [("polluted", .bool true)]),
       ("constructor", .obj [("evil", .bool true)])] }

/-! ## Claim C6, amended theorem -/

/-- Invariant: every audit entry whose action kind maps to L2 records a
failed result (L2 executions never reach the success path). -/
def L2EntriesFailed (s : MCState) : Prop :=
  ∀ (i : Nat) (e : ChainEntry), s.audit.entries[i]? = some e →
    ACTION_CLEARANCE_MAP e.actionRequest.actionType = .L2 →
    e.actionResult.success = false

/-- Run of the C6 counterexample scenario as a public-API trace. -/
def c6TraceState : MCState :=
  runOps cfg0 defaultWorkflowConfig 0
    [.opExecute .DESTROY_RESOURCE l0Agent (.obj []) okExec]

/-! ## Claim C10 -/

/-- Freshness invariant of the uuid supply: every completed action id and
every recorded action-request id is below the uuid counter, and no two
audit entries share an action-request id. -/
def UuidFresh (s : MCState) : Prop :=
  (∀ id : Nat, s.engine.executedActions.contains id = true →
    id < s.nextUuid) ∧
  (∀ (i : Nat) (e : ChainEntry), s.audit.entries[i]? = some e →
    e.actionRequest.id < s.nextUuid) ∧
  List.Pairwise (fun a b => a ≠ b)
    (s.audit.entries.map (fun e => e.actionRequest.id))

/-- Outcome classification of `execute`: the run either succeeded or threw
`EXECUTION_FAILED` out of the executor (no governance interception). -/
def RanExecutor : ExecuteOutcome → Prop
  | .success _ _ => True
  | .thrown _ code _ => code = some "EXECUTION_FAILED"
  | .approvalPending _ => False

/-- Current status of an approval request in the workflow map. -/
def approvalStatusIn (s : MCState) (approvalId : Nat) :
    Option ApprovalStatus :=
  (alistGet? s.workflow.pendingApprovals approvalId).map
    (fun a => a.status)

/-- Chosen-approver set of an approval request. -/
def chosenApprovers (s : MCState) (approvalId : Nat) : List Nat :=
  ((alistGet? s.workflow.pendingApprovals approvalId).map
    (fun a => a.approvers)).getD []

/-- Number of affirmative decisions recorded for an approval request. -/
def affirmCount (s : MCState) (approvalId : Nat) : Nat :=
  (((alistGet? s.workflow.approvalDecisions approvalId).getD []).filter
    (fun d => d.approved)).length

/-- Whether a workflow call returned without throwing. -/
def isOkB {α : Type} : Except String α → Bool
  | .ok _ => true
  | .error _ => false

/-- Decision list after recording one affirmative decision. -/
def newDecisions (s : MCState) (approvalId approverId : Nat)
    (sig reason : Option String) : List ApprovalDecision :=
  ((alistGet? s.workflow.approvalDecisions approvalId).getD []) ++
    [{ approverId := approverId, approved := true, timestamp := s.clock
       signature := sig, reason := reason }]

/-- State right after `approve` records the decision (before the threshold
re-evaluation). -/
def approveDecided (s : MCState) (approvalId approverId : Nat)
    (sig reason : Option String) : MCState :=
  { s with workflow := { s.workflow with
      approvalDecisions := alistSet s.workflow.approvalDecisions
        approvalId (newDecisions s approvalId approverId sig reason) } }

/-- Approval request after the transition to `APPROVED`. -/
def approvedRequest (approval : ApprovalRequest) (approverId : Nat)
    (clock : Nat) : ApprovalRequest :=
  { approval with
    status := .APPROVED
    approvedBy := some approverId
    approvedAt := some clock }

/-- State after `approve` moves the request to `APPROVED`. -/
def approveTransitioned (s : MCState) (approvalId approverId : Nat)
    (sig reason : Option String) (approval : ApprovalRequest) : MCState :=
  let sd := approveDecided s approvalId approverId sig reason
  { sd with workflow := { sd.workflow with
      pendingApprovals := alistSet sd.workflow.pendingApprovals
        approvalId (approvedRequest approval approverId s.clock) } }

/-- The `ACTION_APPROVED` event emitted on the transition. -/
def approvedEvent (s : MCState) (approvalId : Nat)
    (approval : ApprovalRequest) (approverId : Nat)
    (sig reason : Option String) : GEvent :=
  { type := .ACTION_APPROVED
    timestamp := s.clock
    payload := .actionApproved approvalId approval.actionRequestId
      approverId (newDecisions s approvalId approverId sig reason).length
    severity := .info }

/-- Unanimous two-approver workflow configuration. -/
def c7Wcfg : ApprovalWorkflowConfig :=
  { defaultWorkflowConfig with minApprovers := 2, requireUnanimous := true }

/-- Second registered approver. -/
def approver2 : ApproverIdentity :=
  { id := 8, name := "Second Approver", clearanceLevel := .L2 }

/-- Concrete unanimous scenario: two approvers registered, one pending L2
request with chosen approvers `[7, 8]`. -/
def c7State : MCState :=
  runOps cfg0 c7Wcfg 0
    [.opRegisterApprover approver1, .opRegisterApprover approver2,
     .opExecute .DESTROY_RESOURCE l2Agent (.obj []) okExec]

/-! ## Theorems -/

theorem lastHashFrom_cons (expected : GHash) (e : ChainEntry)
    (es : List ChainEntry) :
    lastHashFrom expected (e :: es) = lastHashFrom e.entryHash es := by
  cases es with
  | nil => simp [lastHashFrom]
  | cons f fs =>
    rw [lastHashFrom, lastHashFrom, List.getLast?_cons_cons]
    cases hl : (f :: fs).getLast? with
    | none => simp at hl
    | some x => rfl

theorem lastHashFrom_append_singleton (expected : GHash)
    (es : List ChainEntry) (e : ChainEntry) :
    lastHashFrom expected (es ++ [e]) = e.entryHash := by
  simp [lastHashFrom]

/-- Appending a correctly linked and hashed entry keeps the verification
walk successful. -/
theorem verifyChainAux_append_ok (now : Nat) (expected : GHash)
    (es : List ChainEntry) (e : ChainEntry)
    (hok : verifyChainAux now expected es = (true, []))
    (h1 : e.previousHash = lastHashFrom expected es)
    (h2 : e.entryHash = computeEntryHash e)
    (h3 : e.immutableProof = computeImmutableProof e) :
    verifyChainAux now expected (es ++ [e]) = (true, []) := by
  induction es generalizing expected with
  | nil =>
    simp [lastHashFrom] at h1
    simp [verifyChainAux, h1, h2, h3]
  | cons a rest ih =>
    rw [lastHashFrom_cons] at h1
    rw [verifyChainAux] at hok
    by_cases hc1 : a.previousHash = expected
    · by_cases hc2 : a.entryHash = computeEntryHash a
      · by_cases hc3 : a.immutableProof = computeImmutableProof a
        · have nc1 : ¬ a.previousHash ≠ expected := not_not_intro hc1
          have nc2 : ¬ a.entryHash ≠ computeEntryHash a :=
            not_not_intro hc2
          have nc3 : ¬ a.immutableProof ≠ computeImmutableProof a :=
            not_not_intro hc3
          rw [if_neg nc1, if_neg nc2, if_neg nc3] at hok
          rw [List.cons_append, verifyChainAux, if_neg nc1, if_neg nc2,
            if_neg nc3]
          exact ih a.entryHash hok h1
        · simp [hc1, hc2, hc3] at hok
      · simp [hc1, hc2] at hok
    · simp [hc1] at hok

theorem auditInv_init (config : GovernanceConfig) (createdAt : Nat) :
    AuditInv (AuditState.init config createdAt) := by
  refine ⟨fun now => rfl, rfl, ?_, ?_, ?_⟩ <;>
    simp [AuditState.init]

theorem auditInv_record (a : AuditState) (now : Nat) (req : ActionRequest)
    (res : ActionResult) (ag : AgentIdentity)
    (apr : Option ApprovalRequest) (hinv : AuditInv a) :
    AuditInv (auditRecord a now req res ag apr).1 := by
  obtain ⟨hver, hcount, hseq, hfirst, hlink⟩ := hinv
  set a' := (auditRecord a now req res ag apr).1 with ha'
  obtain ⟨entry, hentries, hgen, hcounter, hprev, hhash, hproof, hseqnum⟩ :
      ∃ entry, a'.entries = a.entries ++ [entry] ∧
        a'.genesisHash = a.genesisHash ∧
        a'.sequenceCounter = a.sequenceCounter + 1 ∧
        entry.previousHash = lastHashFrom a.genesisHash a.entries ∧
        entry.entryHash = computeEntryHash entry ∧
        entry.immutableProof = computeImmutableProof entry ∧
        entry.sequenceNumber = a.sequenceCounter + 1 := by
    refine ⟨_, rfl, rfl, rfl, ?_, ?_, ?_, rfl⟩ <;>
      simp [auditRecord, lastHashFrom, computeEntryHash,
        computeImmutableProof]
  have hlen : ∀ i, a.entries.length ≤ i →
      ∀ e, (a.entries ++ [entry])[i]? = some e →
        i = a.entries.length ∧ e = entry := by
    intro i hi e he
    rw [List.getElem?_append_right hi] at he
    rcases Nat.eq_zero_or_pos (i - a.entries.length) with hz | hpos
    · rw [hz] at he
      simp at he
      exact ⟨by omega, he.symm⟩
    · rw [List.getElem?_eq_none
        (by simp only [List.length_singleton]; omega)] at he
      cases he
  refine ⟨?_, ?_, ?_, ?_, ?_⟩
  · intro n
    unfold verifyChain
    rw [hentries, hgen]
    exact verifyChainAux_append_ok n a.genesisHash a.entries entry
      (hver n) hprev hhash hproof
  · rw [hentries, hcounter, hcount]; simp
  · intro i e he
    rw [hentries] at he
    rcases Nat.lt_or_ge i a.entries.length with hi | hi
    · rw [List.getElem?_append_left hi] at he
      exact hseq i e he
    · obtain ⟨hieq, heq⟩ := hlen i hi e he
      rw [heq, hseqnum, hcount, hieq]
  · intro e he
    rw [hentries] at he
    rcases Nat.eq_zero_or_pos a.entries.length with hz | hpos
    · have hnil : a.entries = [] := List.length_eq_zero.mp hz
      rw [hnil] at he
      simp at he
      rw [hgen, he.symm, hprev, hnil]
      rfl
    · rw [List.getElem?_append_left hpos] at he
      rw [hgen]
      exact hfirst e he
  · intro i e f he hf
    rw [hentries] at he hf
    rcases Nat.lt_or_ge (i + 1) a.entries.length with hi | hi
    · rw [List.getElem?_append_left hi] at hf
      rw [List.getElem?_append_left (Nat.lt_of_succ_lt hi)] at he
      exact hlink i e f he hf
    · obtain ⟨hieq, hfeq⟩ := hlen (i + 1) hi f hf
      have hilt : i < a.entries.length := by omega
      rw [List.getElem?_append_left hilt] at he
      have hlast : a.entries.getLast? = some e := by
        rw [List.getLast?_eq_getElem?]
        have : a.entries.length - 1 = i := by omega
        rw [this]
        exact he
      rw [hfeq, hprev, lastHashFrom, hlast]

/-- Every fold of `record` calls preserves the chain invariant. -/
theorem auditInv_runRecords (a : AuditState) (inputs : List RecordInput)
    (hinv : AuditInv a) : AuditInv (runRecords a inputs) := by
  induction inputs generalizing a with
  | nil => exact hinv
  | cons i rest ih =>
    exact ih _ (auditInv_record a i.now i.actionRequest i.actionResult
      i.agentIdentity i.approvalRequest hinv)

/-- Genesis hash of a trail is never changed by `record`. -/
theorem runRecords_genesis (a : AuditState) (inputs : List RecordInput) :
    (runRecords a inputs).genesisHash = a.genesisHash := by
  induction inputs generalizing a with
  | nil => rfl
  | cons i rest ih => exact (ih _).trans rfl

/-! ## Claim C3 -/

/-- C3: for every sequence of `record` calls (including the empty one),
`verifyChain()` returns true (emitting no tamper event), sequence numbers
are dense and monotonic starting at 1, the first entry's `previousHash` is
the genesis hash, and every later entry's `previousHash` is the preceding
entry's `entryHash`. -/
theorem C3_chain_integrity (config : GovernanceConfig) (createdAt : Nat)
    (inputs : List RecordInput) :
    (∀ now, verifyChain (runRecords (AuditState.init config createdAt)
        inputs) now = (true, [])) ∧
    (∀ i e, (runRecords (AuditState.init config createdAt)
        inputs).entries[i]? = some e → e.sequenceNumber = i + 1) ∧
    (∀ e, (runRecords (AuditState.init config createdAt)
        inputs).entries[0]? = some e →
      e.previousHash = .genesis config.hashAlgorithm
        config.auditRetentionDays createdAt) ∧
    (∀ i e f, (runRecords (AuditState.init config createdAt)
        inputs).entries[i]? = some e →
      (runRecords (AuditState.init config createdAt)
        inputs).entries[i+1]? = some f →
      f.previousHash = e.entryHash) := by
  obtain ⟨hver, _, hseq, hfirst, hlink⟩ :=
    auditInv_runRecords (AuditState.init config createdAt) inputs
      (auditInv_init config createdAt)
  refine ⟨hver, hseq, ?_, hlink⟩
  intro e he
  rw [hfirst e he, runRecords_genesis]
  rfl

/-- Witness for C3 at the concrete two-entry trail. -/
theorem C3_chain_integrity_witness :
    (verifyChain twoEntryTrail 9).1 = true ∧
    (twoEntryTrail.entries[1]?.map (fun e => e.sequenceNumber)) =
      some 2 := by
  have hthm := C3_chain_integrity cfg0 0
    [sampleRecInput 3 100 (.str "p1"), sampleRecInput 4 101 (.str "p2")]
  constructor
  · rw [show verifyChain twoEntryTrail 9 =
      verifyChain (runRecords (AuditState.init cfg0 0)
        [sampleRecInput 3 100 (.str "p1"),
         sampleRecInput 4 101 (.str "p2")]) 9 from rfl, hthm.1 9]
  · have hs : twoEntryTrail.entries[1]?.isSome = true := rfl
    match he : twoEntryTrail.entries[1]? with
    | some e =>
      have := hthm.2.1 1 e he
      simp [this]
    | none => rw [he] at hs; cases hs

/-- C4 counterexample: mutating the first entry's payload — a bit of a past
audit entry that the entry hash does not cover — leaves `verifyChain()`
true and emits no `audit-tamper-detected` event, refuting "mutating any bit
of any past audit entry makes verifyChain() return false". -/
theorem C4_counterexample :
    verifyChain (tamperFirstPayload twoEntryTrail) 7 = (true, []) ∧
    ((tamperFirstPayload twoEntryTrail).entries[0]?.map
      (fun e => payloadStr? e.actionRequest.payload)) =
        some (some "tampered") ∧
    (twoEntryTrail.entries[0]?.map
      (fun e => payloadStr? e.actionRequest.payload)) = some (some "p1") ∧
    ("tampered" : String) ≠ "p1" := by
  refine ⟨rfl, rfl, rfl, by decide⟩

/-- Verification walk hitting an entry-hash mismatch on the first entry. -/
theorem verifyChainAux_entryHash_mismatch (now : Nat) (g : GHash)
    (e : ChainEntry) (rest : List ChainEntry)
    (h1 : e.previousHash = g) (h2 : e.entryHash ≠ computeEntryHash e) :
    verifyChainAux now g (e :: rest) =
      (false, [tamperEvent now e "ENTRY_HASH_MISMATCH"]) := by
  rw [verifyChainAux, if_neg (not_not_intro h1), if_pos h2]

/-- C4 amended: replacing the first entry's `entryHash` by any value
different from the recomputed entry hash (in particular the S6 mutation on
a two-entry trail) makes `verifyChain()` return false and emit exactly one
`audit-tamper-detected` event with reason `ENTRY_HASH_MISMATCH`; only the
hash-covered fields are protected this way. -/
theorem C4_amended (a : AuditState) (h : GHash) (e : ChainEntry)
    (rest : List ChainEntry) (now : Nat)
    (hent : a.entries = e :: rest)
    (hprev : e.previousHash = a.genesisHash)
    (hne : h ≠ computeEntryHash e) :
    verifyChain (setFirstEntryHash a h) now =
      (false, [tamperEvent now e "ENTRY_HASH_MISMATCH"]) := by
  have hgoal : verifyChain (setFirstEntryHash a h) now =
      verifyChainAux now a.genesisHash ({ e with entryHash := h } :: rest)
      := by
    unfold verifyChain setFirstEntryHash
    rw [hent]
  rw [hgoal]
  have h2 : ({ e with entryHash := h } : ChainEntry).entryHash ≠
      computeEntryHash { e with entryHash := h } := by
    simpa [computeEntryHash] using hne
  rw [verifyChainAux_entryHash_mismatch now a.genesisHash _ rest
    (by simpa using hprev) h2]
  rfl

/-- Witness for C4's amended theorem at the S6 input: the concrete
replacement value `'tampered-hash'` on the concrete two-entry trail. -/
theorem C4_amended_witness :
    twoEntryTrail.entries = twoEntryFirst :: twoEntryTrail.entries.drop 1 ∧
    verifyChain (setFirstEntryHash twoEntryTrail (.raw "tampered-hash")) 7
      = (false, [tamperEvent 7 twoEntryFirst "ENTRY_HASH_MISMATCH"]) := by
  refine ⟨rfl, ?_⟩
  exact C4_amended twoEntryTrail (.raw "tampered-hash") twoEntryFirst
    (twoEntryTrail.entries.drop 1) 7 rfl rfl (by decide)

/-! ## Claim C1 -/

/-- C1 (code bug, evaluated at the failing input): in scenario S3 the first
L2 `execute` returns a pending reference (approval id 0) without invoking
the executor, and `approveAction` drives that workflow request to
`APPROVED`; but the subsequent `execute` for the same action kind and agent
returns a fresh pending reference (approval id 1) instead of invoking the
executor — the executor-invocation trace stays empty.  The cause:
`validateAction` creates a brand-new `PENDING` approval on every call and
never consults the approved workflow request, so `preExecute` always
short-circuits with "Waiting for L2 approval". -/
theorem C1_second_execute_still_pending :
    s3First.2 = .approvalPending 0 ∧
    s3First.1.executorInvocations = [] ∧
    (alistGet? s3Approved.workflow.pendingApprovals 0).map
      (fun a => a.status) = some .APPROVED ∧
    s3Second.2 = .approvalPending 1 ∧
    s3Second.1.executorInvocations = [] := by
  exact ⟨rfl, rfl, rfl, rfl, rfl⟩

/-- C2 (code bug, evaluated at the failing input): with two pending
approvals, `emergencyStop("incident")` throws
`Cannot revoke request with status PENDING` out of the first
`ApprovalWorkflow.revoke` call (whose guard admits only `APPROVED`
requests), so no approval is revoked, `getPendingApprovals()` still
returns both pending requests, and no critical `action-rejected` event is
emitted. -/
theorem C2_emergency_stop_throws_on_pending :
    (getPendingApprovalsW s5Two).length = 2 ∧
    s5Stop.2 = .error "Cannot revoke request with status PENDING" ∧
    (getPendingApprovalsW s5Stop.1).map (fun a => a.status) =
      [.PENDING, .PENDING] ∧
    s5Stop.1.events = s5Two.events := by
  exact ⟨rfl, rfl, rfl, rfl⟩

/-- C5 counterexample: the error raised for a clearance violation is the
`MissionControlError` with code `ENFORCEMENT_REJECTED` (as the repository's
own test `should include audit entry in MissionControlError` asserts) — no
`ClearanceViolation`-coded error exists in the code, refuting "raises
ClearanceViolation". -/
theorem C5_counterexample :
    thrownCode? s2Run.2 = some "ENFORCEMENT_REJECTED" ∧
    some "ENFORCEMENT_REJECTED" ≠ some "CLEARANCE_VIOLATION" := by
  exact ⟨rfl, by decide⟩

/-- C6 counterexample: the audit entry appended for an under-cleared
attempt at an L2 action kind carries no approval request reference at all
(the trail holds exactly one entry; its action kind maps to L2 and its
`approvalRequest` is absent), refuting "every L2 audit entry carries an
approved approval reference". -/
theorem C6_counterexample :
    c6Run.1.audit.entries.map
      (fun e => (ACTION_CLEARANCE_MAP e.actionRequest.actionType ==
        ClearanceLevel.L2, e.approvalRequest.isSome)) = [(true, false)] := by
  exact rfl

/-! ## Symbolic lemmas about the enforcement path -/

theorem hasSuff_false_of_lt (a r : ClearanceLevel) (h : a.rank < r.rank) :
    hasSufficientClearance a r = false := by
  unfold hasSufficientClearance
  simp only [decide_eq_false_iff_not]
  omega

theorem validateAction_insufficient (s : MCState) (req : ActionRequest)
    (agent : AgentIdentity)
    (h : hasSufficientClearance agent.clearanceLevel
      (ACTION_CLEARANCE_MAP req.actionType) = false) :
    validateAction s req agent =
      (emit s (cvEvent s.clock req.id req.actionType agent),
       cvResult req agent) := by
  unfold validateAction
  simp only [h, Bool.false_eq_true, if_false]
  rfl

theorem preExecute_insufficient (s : MCState) (req : ActionRequest)
    (agent : AgentIdentity)
    (h : hasSufficientClearance agent.clearanceLevel
      (ACTION_CLEARANCE_MAP req.actionType) = false) :
    preExecute s req agent =
      (emit s (cvEvent s.clock req.id req.actionType agent),
       { proceed := false
         enforcementResult := cvResult req agent
         intercepted := some true
         reason := (cvResult req agent).reason }) := by
  unfold preExecute
  rw [validateAction_insufficient s req agent h]
  rfl

/-- C5 amended: for every action kind `k` and agent below the required
clearance rank, `execute` behaves as `ClearanceRejection` describes.  (The
original claim's only failure is the error name: the code throws
`ENFORCEMENT_REJECTED`, not a `ClearanceViolation` error.) -/
theorem C5_clearance_violation_behaviour (s : MCState) (k : ActionType)
    (agent : AgentIdentity) (payload : JsValue)
    (executor : JsValue → ExecutorResult)
    (hrank : agent.clearanceLevel.rank < (ACTION_CLEARANCE_MAP k).rank) :
    ClearanceRejection s k agent payload executor := by
  have hF : hasSufficientClearance agent.clearanceLevel
      (ACTION_CLEARANCE_MAP k) = false := hasSuff_false_of_lt _ _ hrank
  unfold ClearanceRejection
  simp only [execute]
  rw [preExecute_insufficient _ _ agent hF]
  refine ⟨_, ?_, rfl, rfl, rfl, rfl, rfl, rfl,
    ⟨{ type := .ACTION_FAILED, timestamp := s.clock
       payload := .auditRecorded s.audit.nextEntryId k
       severity := .warning }, ?_, rfl⟩, rfl⟩
  · simp [auditRecordMC, auditRecord, emit, cvResult]
  · simp [auditRecordMC, auditRecord, emit, cvEvent, cvResult]

/-- Witness for C5's amended theorem at scenario S2 (an L0 agent
attempting `modify-config`). -/
theorem C5_clearance_violation_behaviour_witness :
    l0Agent.clearanceLevel.rank <
      (ACTION_CLEARANCE_MAP .MODIFY_CONFIG).rank ∧
    ClearanceRejection mc0 .MODIFY_CONFIG l0Agent (.obj []) okExec :=
  ⟨by decide,
   C5_clearance_violation_behaviour mc0 .MODIFY_CONFIG l0Agent (.obj [])
     okExec (by decide)⟩

/-! ## Claim C8 -/

theorem natSetAdd_contains_self (l : List Nat) (k : Nat) :
    (natSetAdd l k).contains k = true := by
  unfold natSetAdd
  by_cases h : l.contains k = true
  · rw [if_pos h]
    exact h
  · rw [if_neg h]
    simp

theorem validateAction_sufficient_notL2 (s : MCState)
    (req : ActionRequest) (agent : AgentIdentity)
    (hsuff : hasSufficientClearance agent.clearanceLevel
      (ACTION_CLEARANCE_MAP req.actionType) = true)
    (hk : ACTION_CLEARANCE_MAP req.actionType ≠ .L2) :
    validateAction s req agent =
      (s, { allowed := true
            requiredClearance := ACTION_CLEARANCE_MAP req.actionType
            agentClearance := agent.clearanceLevel
            requiresApproval := false }) := by
  simp only [validateAction, hsuff, if_true, hk, if_false]

theorem validateAction_sufficient_L2 (s : MCState) (req : ActionRequest)
    (agent : AgentIdentity)
    (hsuff : hasSufficientClearance agent.clearanceLevel
      (ACTION_CLEARANCE_MAP req.actionType) = true)
    (hk : ACTION_CLEARANCE_MAP req.actionType = .L2) :
    validateAction s req agent =
      ((createApprovalRequest s req agent).1,
       { allowed := true
         requiredClearance := .L2
         agentClearance := agent.clearanceLevel
         requiresApproval := true
         approvalRequest := some (createApprovalRequest s req agent).2
         reason := some "L2 action requires human approval" }) := by
  have hsuff' : hasSufficientClearance agent.clearanceLevel
      ClearanceLevel.L2 = true := by
    rw [hk] at hsuff
    exact hsuff
  simp only [validateAction, hk, hsuff', if_true]

/-- The engine's `preExecute` on an already-completed action-request id by
a sufficiently cleared agent: interception with the idempotency reason,
and no interaction with the audit trail. -/
theorem preExecute_already_executed (s : MCState) (req : ActionRequest)
    (agent : AgentIdentity)
    (hexec : s.engine.executedActions.contains req.id = true)
    (hsuff : hasSufficientClearance agent.clearanceLevel
      (ACTION_CLEARANCE_MAP req.actionType) = true) :
    (preExecute s req agent).2.proceed = false ∧
    (preExecute s req agent).2.intercepted = some true ∧
    (preExecute s req agent).2.reason =
      some "Action already executed (idempotency check)" ∧
    (preExecute s req agent).1.audit = s.audit := by
  have hexec' : req.id ∈ s.engine.executedActions := by
    simpa using hexec
  by_cases hk : ACTION_CLEARANCE_MAP req.actionType = .L2
  · rw [preExecute, validateAction_sufficient_L2 s req agent hsuff hk]
    simp [createApprovalRequest, emit, hexec, hexec']
  · rw [preExecute, validateAction_sufficient_notL2 s req agent hsuff hk]
    simp [hexec, hexec']

/-- C8: `postExecute` marks the action-request id completed, and a
subsequent `preExecute` with a completed id by a sufficiently cleared
agent is rejected with the idempotency interception
(`Action already executed (idempotency check)` — the spec's
`AlreadyExecuted`) and appends no audit entry. -/
theorem C8_idempotency_guard :
    (∀ (s : MCState) (req : ActionRequest) (error : Option String),
      ((postExecute s req error).1.engine.executedActions.contains req.id)
        = true) ∧
    (∀ (s : MCState) (req : ActionRequest) (agent : AgentIdentity),
      s.engine.executedActions.contains req.id = true →
      hasSufficientClearance agent.clearanceLevel
        (ACTION_CLEARANCE_MAP req.actionType) = true →
      (preExecute s req agent).2.proceed = false ∧
      (preExecute s req agent).2.intercepted = some true ∧
      (preExecute s req agent).2.reason =
        some "Action already executed (idempotency check)" ∧
      (preExecute s req agent).1.audit = s.audit) := by
  constructor
  · intro s req error
    cases error with
    | none => simpa [postExecute, emit] using natSetAdd_contains_self _ _
    | some msg => simpa [postExecute, emit] using natSetAdd_contains_self _ _
  · intro s req agent hexec hsuff
    exact preExecute_already_executed s req agent hexec hsuff

/-- Witness for C8 after a concrete `postExecute`. -/
theorem C8_idempotency_guard_witness :
    idemState.engine.executedActions.contains idemReq.id = true ∧
    hasSufficientClearance sampleAgent.clearanceLevel
      (ACTION_CLEARANCE_MAP idemReq.actionType) = true ∧
    ((preExecute idemState idemReq sampleAgent).2.proceed = false ∧
     (preExecute idemState idemReq sampleAgent).2.intercepted =
       some true ∧
     (preExecute idemState idemReq sampleAgent).2.reason =
       some "Action already executed (idempotency check)" ∧
     (preExecute idemState idemReq sampleAgent).1.audit =
       idemState.audit) :=
  ⟨rfl, by decide,
   C8_idempotency_guard.2 idemState idemReq sampleAgent rfl (by decide)⟩

theorem sanitize_obj_eq_filter (fields : List (String × JsValue))
    (aty : ActionType) :
    sanitizePayload (.obj fields) aty =
      .obj (fields.filter (fun kv => !(dangerousFields.contains kv.1))) := by
  show JsValue.obj (dangerousFields.foldl deleteField fields) = _
  simp only [dangerousFields, List.foldl, deleteField, List.filter_filter]
  congr 1
  apply List.filter_congr
  intro kv _
  by_cases h1 : kv.1 = "__proto__" <;>
    by_cases h2 : kv.1 = "constructor" <;>
    by_cases h3 : kv.1 = "prototype" <;>
    simp [h1, h2, h3]

theorem objGet?_sanitized (fields : List (String × JsValue)) (k : String) :
    objGet? (fields.filter (fun kv => !(dangerousFields.contains kv.1)))
      k =
      if dangerousFields.contains k then none else objGet? fields k := by
  induction fields with
  | nil => simp [objGet?]
  | cons kv rest ih =>
    by_cases hd : kv.1 ∈ dangerousFields <;>
      by_cases hkk : kv.1 = k <;>
      by_cases hkd : k ∈ dangerousFields <;>
      simp_all [objGet?, List.filter_cons, List.find?_cons] <;>
      exact ih

theorem keys_sanitized (fields : List (String × JsValue)) :
    ((fields.filter (fun kv => !(dangerousFields.contains kv.1))).map
      Prod.fst) =
      (fields.map Prod.fst).filter (fun k => !(dangerousFields.contains k))
      := by
  induction fields with
  | nil => rfl
  | cons kv rest ih =>
    by_cases hd : kv.1 ∈ dangerousFields <;>
      simp [List.filter_cons, hd] <;>
      simpa using ih

theorem preExecute_modifiedPayload (s : MCState) (req : ActionRequest)
    (agent : AgentIdentity)
    (hproceed : (preExecute s req agent).2.proceed = true) :
    (preExecute s req agent).2.modifiedPayload =
      some (sanitizePayload req.payload req.actionType) := by
  unfold preExecute at hproceed ⊢
  rcases hva : validateAction s req agent with ⟨s1, er⟩
  simp only [hva] at hproceed ⊢
  by_cases hA : er.allowed = false
  · simp [hA] at hproceed
  · by_cases hE : req.id ∈ s1.engine.executedActions
    · simp [hA, hE] at hproceed
    · by_cases hR : er.requiresApproval = true
      · rcases hap : er.approvalRequest with _ | ap
        · simp [hA, hE, hR, hap]
        · by_cases hp : ap.status = .PENDING
          · simp [hA, hE, hR, hap, hp] at hproceed
          · by_cases hrj : ap.status = .REJECTED
            · simp [hA, hE, hR, hap, hp, hrj] at hproceed
            · by_cases hex : ap.status = .EXPIRED
              · simp [hA, hE, hR, hap, hp, hrj, hex] at hproceed
              · simp [hA, hE, hR, hap, hp, hrj, hex]
      · simp [hA, hE, hR]

/-- C9: sanitization of a key-value payload is exactly the removal of the
keys `__proto__`, `constructor` and `prototype` (key set and per-key
values characterized), scalars pass through untouched, and the payload
`preExecute` hands on for execution is precisely the sanitized payload. -/
theorem C9_payload_sanitization :
    (∀ (fields : List (String × JsValue)) (aty : ActionType),
      sanitizePayload (.obj fields) aty =
        .obj (fields.filter (fun kv => !(dangerousFields.contains kv.1))))
    ∧
    (∀ (fields : List (String × JsValue)) (k : String),
      objGet? (fields.filter (fun kv => !(dangerousFields.contains kv.1)))
        k =
        if dangerousFields.contains k then none else objGet? fields k) ∧
    (∀ fields : List (String × JsValue),
      ((fields.filter (fun kv => !(dangerousFields.contains kv.1))).map
        Prod.fst) =
        (fields.map Prod.fst).filter
          (fun k => !(dangerousFields.contains k))) ∧
    (∀ (p : JsValue) (aty : ActionType),
      (∀ fs, p ≠ .obj fs) → sanitizePayload p aty = p) ∧
    (∀ (s : MCState) (req : ActionRequest) (agent : AgentIdentity),
      (preExecute s req agent).2.proceed = true →
      (preExecute s req agent).2.modifiedPayload =
        some (sanitizePayload req.payload req.actionType)) := by
  refine ⟨sanitize_obj_eq_filter, objGet?_sanitized, keys_sanitized,
    ?_, preExecute_modifiedPayload⟩
  intro p aty h
  cases p with
  | obj fs => exact absurd rfl (h fs)
  | null => rfl
  | undef => rfl
  | bool b => rfl
  | num n => rfl
  | str s => rfl

/-- Witness for C9 at a scalar payload and at a concrete proceeding
`preExecute` call. -/
theorem C9_payload_sanitization_witness :
    sanitizePayload (.num 3) .MODIFY_CONFIG = .num 3 ∧
    (preExecute mc0 sanReq sampleAgent).2.proceed = true ∧
    (preExecute mc0 sanReq sampleAgent).2.modifiedPayload =
      some (sanitizePayload sanReq.payload sanReq.actionType) :=
  ⟨C9_payload_sanitization.2.2.2.1 (.num 3) .MODIFY_CONFIG
     (fun _ h => JsValue.noConfusion h),
   rfl,
   C9_payload_sanitization.2.2.2.2 mc0 sanReq sampleAgent rfl⟩

/-! ## Preservation lemmas: which state components each operation can
touch -/

theorem validateAction_proj (s : MCState) (req : ActionRequest)
    (agent : AgentIdentity) :
    (validateAction s req agent).1.audit = s.audit ∧
    (validateAction s req agent).1.engine.executedActions =
      s.engine.executedActions ∧
    (validateAction s req agent).1.nextUuid = s.nextUuid ∧
    (validateAction s req agent).1.executorInvocations =
      s.executorInvocations ∧
    (validateAction s req agent).1.workflow = s.workflow := by
  simp only [validateAction, createApprovalRequest, emit]
  repeat' split
  all_goals exact ⟨rfl, rfl, rfl, rfl, rfl⟩

theorem preExecute_proj (s : MCState) (req : ActionRequest)
    (agent : AgentIdentity) :
    (preExecute s req agent).1.audit = s.audit ∧
    (preExecute s req agent).1.engine.executedActions =
      s.engine.executedActions ∧
    (preExecute s req agent).1.nextUuid = s.nextUuid ∧
    (preExecute s req agent).1.executorInvocations =
      s.executorInvocations ∧
    (preExecute s req agent).1.workflow = s.workflow := by
  obtain ⟨h1, h2, h3, h4, h5⟩ := validateAction_proj s req agent
  unfold preExecute
  rcases hva : validateAction s req agent with ⟨s1, er⟩
  rw [hva] at h1 h2 h3 h4 h5
  simp only [hva]
  repeat' split
  all_goals exact ⟨h1, h2, h3, h4, h5⟩

theorem submitForApproval_proj (s : MCState) (req : ActionRequest)
    (requester : AgentIdentity) :
    (submitForApproval s req requester).1.audit = s.audit ∧
    (submitForApproval s req requester).1.engine = s.engine ∧
    (submitForApproval s req requester).1.nextUuid = s.nextUuid ∧
    (submitForApproval s req requester).1.executorInvocations =
      s.executorInvocations := by
  simp only [submitForApproval, emit]
  repeat' split
  all_goals exact ⟨rfl, rfl, rfl, rfl⟩

theorem approveW_proj (s : MCState) (a b : Nat) (c d : Option String) :
    (approveW s a b c d).1.audit = s.audit ∧
    (approveW s a b c d).1.engine = s.engine ∧
    (approveW s a b c d).1.nextUuid = s.nextUuid ∧
    (approveW s a b c d).1.executorInvocations = s.executorInvocations
    := by
  simp only [approveW, emit]
  repeat' split
  all_goals exact ⟨rfl, rfl, rfl, rfl⟩

theorem rejectW_proj (s : MCState) (a b : Nat) (c : String)
    (d : Option String) :
    (rejectW s a b c d).1.audit = s.audit ∧
    (rejectW s a b c d).1.engine = s.engine ∧
    (rejectW s a b c d).1.nextUuid = s.nextUuid ∧
    (rejectW s a b c d).1.executorInvocations = s.executorInvocations
    := by
  simp only [rejectW, emit]
  repeat' split
  all_goals exact ⟨rfl, rfl, rfl, rfl⟩

theorem revokeW_proj (s : MCState) (a : Nat) (b c : String) :
    (revokeW s a b c).1.audit = s.audit ∧
    (revokeW s a b c).1.engine = s.engine ∧
    (revokeW s a b c).1.nextUuid = s.nextUuid ∧
    (revokeW s a b c).1.executorInvocations = s.executorInvocations := by
  simp only [revokeW, emit]
  repeat' split
  all_goals exact ⟨rfl, rfl, rfl, rfl⟩

theorem revokeAll_proj (reason : String) (s : MCState)
    (l : List ApprovalRequest) :
    (revokeAll reason s l).1.audit = s.audit ∧
    (revokeAll reason s l).1.engine = s.engine ∧
    (revokeAll reason s l).1.nextUuid = s.nextUuid ∧
    (revokeAll reason s l).1.executorInvocations = s.executorInvocations
    := by
  induction l generalizing s with
  | nil => exact ⟨rfl, rfl, rfl, rfl⟩
  | cons ap rest ih =>
    obtain ⟨h1, h2, h3, h4⟩ := revokeW_proj s ap.id "EMERGENCY_STOP" reason
    rw [revokeAll]
    rcases hrv : revokeW s ap.id "EMERGENCY_STOP" reason with ⟨s1, r⟩
    rw [hrv] at h1 h2 h3 h4
    cases r with
    | ok v =>
      obtain ⟨g1, g2, g3, g4⟩ := ih s1
      exact ⟨g1.trans h1, g2.trans h2, g3.trans h3, g4.trans h4⟩
    | error e => exact ⟨h1, h2, h3, h4⟩

theorem emergencyStop_proj (s : MCState) (reason : String) :
    (emergencyStop s reason).1.audit = s.audit ∧
    (emergencyStop s reason).1.engine = s.engine ∧
    (emergencyStop s reason).1.nextUuid = s.nextUuid ∧
    (emergencyStop s reason).1.executorInvocations =
      s.executorInvocations := by
  obtain ⟨h1, h2, h3, h4⟩ :=
    revokeAll_proj reason s (getPendingApprovalsW s)
  simp only [emergencyStop, emit]
  rcases hrv : revokeAll reason s (getPendingApprovalsW s) with ⟨s1, r⟩
  rw [hrv] at h1 h2 h3 h4
  cases r with
  | ok v => exact ⟨h1, h2, h3, h4⟩
  | error e => exact ⟨h1, h2, h3, h4⟩

theorem registerApprover_proj (s : MCState) (ap : ApproverIdentity) :
    (registerApprover s ap).1.audit = s.audit ∧
    (registerApprover s ap).1.engine = s.engine ∧
    (registerApprover s ap).1.nextUuid = s.nextUuid ∧
    (registerApprover s ap).1.executorInvocations =
      s.executorInvocations := by
  simp only [registerApprover]
  repeat' split
  all_goals exact ⟨rfl, rfl, rfl, rfl⟩

/-- The approval request freshly created by `validateAction` is always
`PENDING`, so `preExecute` never proceeds for an L2-mapped action kind. -/
theorem preExecute_proceed_not_L2 (s : MCState) (req : ActionRequest)
    (agent : AgentIdentity)
    (h : (preExecute s req agent).2.proceed = true) :
    ACTION_CLEARANCE_MAP req.actionType ≠ .L2 := by
  intro hk
  by_cases hsuff : hasSufficientClearance agent.clearanceLevel
      (ACTION_CLEARANCE_MAP req.actionType) = true
  · rw [preExecute, validateAction_sufficient_L2 s req agent hsuff hk]
      at h
    by_cases hE : req.id ∈
        (createApprovalRequest s req agent).1.engine.executedActions
    · simp [hE] at h
    · have hpend : (createApprovalRequest s req agent).2.status =
          ApprovalStatus.PENDING := rfl
      simp [hE, hpend] at h
  · have hF : hasSufficientClearance agent.clearanceLevel
        (ACTION_CLEARANCE_MAP req.actionType) = false := by
      simpa using hsuff
    rw [preExecute_insufficient s req agent hF] at h
    simp at h

/-- Splitting of an index lookup over a one-element append. -/
theorem getElem?_append_singleton_cases {α : Type} (l : List α) (x : α)
    (i : Nat) (e : α) (h : (l ++ [x])[i]? = some e) :
    l[i]? = some e ∨ e = x := by
  rcases Nat.lt_or_ge i l.length with hi | hi
  · left
    rwa [List.getElem?_append_left hi] at h
  · right
    rw [List.getElem?_append_right hi] at h
    rcases Nat.eq_zero_or_pos (i - l.length) with hz | hpos
    · rw [hz] at h
      simp at h
      exact h.symm
    · rw [List.getElem?_eq_none
        (by simp only [List.length_singleton]; omega)] at h
      cases h

/-- Effect of one `execute` call on the uuid supply, the idempotency set
and the audit trail: the call consumes two uuids, marks at most the fresh
action-request id executed, and appends at most one audit entry — carrying
the fresh id, and either failed or of a non-L2 action kind. -/
theorem execute_effects (s : MCState) (k : ActionType)
    (agent : AgentIdentity) (payload : JsValue)
    (executor : JsValue → ExecutorResult) :
    (execute s k agent payload executor).1.nextUuid = s.nextUuid + 2 ∧
    ((execute s k agent payload executor).1.engine.executedActions =
        s.engine.executedActions ∨
      (execute s k agent payload executor).1.engine.executedActions =
        natSetAdd s.engine.executedActions s.nextUuid) ∧
    (∀ (i : Nat) (e : ChainEntry),
      (execute s k agent payload executor).1.audit.entries[i]? = some e →
      s.audit.entries[i]? = some e ∨
        (e.actionRequest.id = s.nextUuid ∧
          (e.actionResult.success = false ∨
            ACTION_CLEARANCE_MAP e.actionRequest.actionType ≠ .L2))) := by
  simp only [execute]
  rcases hpre : preExecute
      { s with nextUuid := s.nextUuid + 2 }
      { id := s.nextUuid, actionType := k, agentId := agent.id
        timestamp := s.clock, payload := payload, signature := none
        correlationId := some (s.nextUuid + 1) }
      agent with ⟨s1, pre⟩
  obtain ⟨p1, p2, p3, p4, p5⟩ := preExecute_proj
    { s with nextUuid := s.nextUuid + 2 }
    { id := s.nextUuid, actionType := k, agentId := agent.id
      timestamp := s.clock, payload := payload, signature := none
      correlationId := some (s.nextUuid + 1) }
    agent
  rw [hpre] at p1 p2 p3 p4 p5
  replace p1 : s1.audit = s.audit := p1
  replace p2 : s1.engine.executedActions = s.engine.executedActions := p2
  replace p3 : s1.nextUuid = s.nextUuid + 2 := p3
  simp only [hpre]
  by_cases hp : pre.proceed = false
  · rw [if_pos hp]
    by_cases happ : (pre.enforcementResult.requiresApproval &&
        (match pre.enforcementResult.approvalRequest with
         | some ap => ap.status == ApprovalStatus.PENDING
         | none => false)) = true
    · rw [if_pos happ]
      rcases hsub : submitForApproval s1
          { id := s.nextUuid, actionType := k, agentId := agent.id
            timestamp := s.clock, payload := payload, signature := none
            correlationId := some (s.nextUuid + 1) }
          agent with ⟨s2, r⟩
      obtain ⟨q1, q2, q3, q4⟩ := submitForApproval_proj s1
        { id := s.nextUuid, actionType := k, agentId := agent.id
          timestamp := s.clock, payload := payload, signature := none
          correlationId := some (s.nextUuid + 1) }
        agent
      rw [hsub] at q1 q2 q3 q4
      replace q1 : s2.audit = s1.audit := q1
      replace q2 : s2.engine = s1.engine := q2
      replace q3 : s2.nextUuid = s1.nextUuid := q3
      have hcommon :
          s2.nextUuid = s.nextUuid + 2 ∧
          (s2.engine.executedActions = s.engine.executedActions ∨
            s2.engine.executedActions =
              natSetAdd s.engine.executedActions s.nextUuid) ∧
          (∀ (i : Nat) (e : ChainEntry), s2.audit.entries[i]? = some e →
            s.audit.entries[i]? = some e ∨
              (e.actionRequest.id = s.nextUuid ∧
                (e.actionResult.success = false ∨
                  ACTION_CLEARANCE_MAP e.actionRequest.actionType ≠
                    .L2))) := by
        refine ⟨q3.trans p3, Or.inl ?_, ?_⟩
        · rw [q2]
          exact p2
        · intro i e he
          rw [q1, p1] at he
          exact Or.inl he
      cases r with
      | ok approval => exact hcommon
      | error e => exact hcommon
    · rw [if_neg happ]
      refine ⟨by simp [auditRecordMC, auditRecord, emit, p3],
        Or.inl (by simp [auditRecordMC, auditRecord, emit, p2]), ?_⟩
      intro i e he
      simp only [auditRecordMC, auditRecord, emit] at he
      rw [p1] at he
      rcases getElem?_append_singleton_cases _ _ _ _ he with h | h
      · exact Or.inl h
      · subst h
        exact Or.inr ⟨rfl, Or.inl rfl⟩
  · rw [if_neg hp]
    have hnotL2 : ACTION_CLEARANCE_MAP k ≠ .L2 := by
      have hpt : pre.proceed = true := by
        cases hb : pre.proceed with
        | true => rfl
        | false => exact absurd hb hp
      exact preExecute_proceed_not_L2 _ _ agent (by rw [hpre]; exact hpt)
    cases hex : executor (jsOrPayload pre.modifiedPayload payload) with
    | ok v =>
      refine ⟨by simp [auditRecordMC, auditRecord, postExecute, emit, p3],
        Or.inr (by simp [auditRecordMC, auditRecord, postExecute, emit,
          p2]), ?_⟩
      intro i e he
      simp only [auditRecordMC, auditRecord, postExecute, emit] at he
      rw [p1] at he
      rcases getElem?_append_singleton_cases _ _ _ _ he with h | h
      · exact Or.inl h
      · subst h
        exact Or.inr ⟨rfl, Or.inr hnotL2⟩
    | err m =>
      refine ⟨by simp [auditRecordMC, auditRecord, postExecute, emit, p3],
        Or.inr (by simp [auditRecordMC, auditRecord, postExecute, emit,
          p2]), ?_⟩
      intro i e he
      simp only [auditRecordMC, auditRecord, postExecute, emit] at he
      rw [p1] at he
      rcases getElem?_append_singleton_cases _ _ _ _ he with h | h
      · exact Or.inl h
      · subst h
        exact Or.inr ⟨rfl, Or.inr hnotL2⟩

/-- States with the same audit trail share the invariant. -/
theorem L2EntriesFailed_of_audit_eq (s t : MCState)
    (ha : t.audit = s.audit) (h : L2EntriesFailed s) :
    L2EntriesFailed t := by
  intro i e he hk
  rw [ha] at he
  exact h i e he hk

theorem L2EntriesFailed_step (s : MCState) (op : MCOp)
    (h : L2EntriesFailed s) : L2EntriesFailed (mcStep s op) := by
  cases op with
  | opExecute k agent payload executor =>
    intro i e he hk
    simp only [mcStep] at he
    obtain ⟨-, -, h3⟩ := execute_effects s k agent payload executor
    rcases h3 i e he with hold | ⟨-, hfl⟩
    · exact h i e hold hk
    · rcases hfl with hf | hnl
      · exact hf
      · exact absurd hk hnl
  | opApprove a b c d =>
    exact L2EntriesFailed_of_audit_eq s _ (approveW_proj s a b c d).1 h
  | opReject a b c d =>
    exact L2EntriesFailed_of_audit_eq s _ (rejectW_proj s a b c d).1 h
  | opRegisterApprover ap =>
    exact L2EntriesFailed_of_audit_eq s _ (registerApprover_proj s ap).1 h
  | opUnregisterApprover a =>
    exact L2EntriesFailed_of_audit_eq s _ rfl h
  | opEmergencyStop r =>
    exact L2EntriesFailed_of_audit_eq s _ (emergencyStop_proj s r).1 h

/-- C6 amended: in every reachable state, every audit entry whose embedded
action request has an L2 action kind records a failed result — such entries
are enforcement rejections (which may carry no approval reference), and the
original claim's approved-reference condition holds vacuously among
successful entries. -/
theorem C6_l2_entries_failed (config : GovernanceConfig)
    (wcfg : ApprovalWorkflowConfig) (createdAt : Nat) (ops : List MCOp) :
    ∀ (i : Nat) (e : ChainEntry),
      (runOps config wcfg createdAt ops).audit.entries[i]? = some e →
      ACTION_CLEARANCE_MAP e.actionRequest.actionType = .L2 →
      e.actionResult.success = false ∧
      (e.actionResult.success = true →
        ∃ ap, e.approvalRequest = some ap ∧
          ap.status = ApprovalStatus.APPROVED) := by
  have hbase : L2EntriesFailed (MCState.init config wcfg createdAt) := by
    intro i e he _
    simp [MCState.init, AuditState.init] at he
  have hinv : ∀ (l : List MCOp) (s : MCState), L2EntriesFailed s →
      L2EntriesFailed (l.foldl mcStep s) := by
    intro l
    induction l with
    | nil => exact fun s hs => hs
    | cons op rest ih => exact fun s hs => ih _ (L2EntriesFailed_step s op hs)
  intro i e he hk
  have hf := hinv ops _ hbase i e he hk
  exact ⟨hf, fun ht => absurd (hf.symm.trans ht) (by decide)⟩

/-- Witness for C6's amended theorem: the single recorded entry of the
concrete trace has an L2 action kind and a failed result. -/
theorem C6_l2_entries_failed_witness :
    (c6TraceState.audit.entries[0]?.map
      (fun e => e.actionResult.success)) = some false := by
  have hs : c6TraceState.audit.entries[0]?.isSome = true := rfl
  match he : c6TraceState.audit.entries[0]? with
  | none => rw [he] at hs; cases hs
  | some e =>
    have hk : (some e).map
        (fun e => ACTION_CLEARANCE_MAP e.actionRequest.actionType) =
        some ClearanceLevel.L2 := by
      rw [← he]
      rfl
    simp only [Option.map_some'] at hk
    have hmain := C6_l2_entries_failed cfg0 defaultWorkflowConfig 0
      [.opExecute .DESTROY_RESOURCE l0Agent (.obj []) okExec]
      0 e he (by injection hk)
    simp [hmain.1]

theorem natSetAdd_contains_cases (l : List Nat) (k x : Nat)
    (h : (natSetAdd l k).contains x = true) :
    l.contains x = true ∨ x = k := by
  unfold natSetAdd at h
  by_cases hc : l.contains k = true
  · rw [if_pos hc] at h
    exact Or.inl h
  · rw [if_neg hc] at h
    simp at h
    rcases h with h | h
    · exact Or.inl (by simpa using h)
    · exact Or.inr h

/-- Structural effect of one `execute` call on the entry list: unchanged,
or one appended entry carrying the fresh action-request id. -/
theorem execute_entries_shape (s : MCState) (k : ActionType)
    (agent : AgentIdentity) (payload : JsValue)
    (executor : JsValue → ExecutorResult) :
    (execute s k agent payload executor).1.audit.entries =
      s.audit.entries ∨
    ∃ e, (execute s k agent payload executor).1.audit.entries =
        s.audit.entries ++ [e] ∧ e.actionRequest.id = s.nextUuid := by
  simp only [execute]
  rcases hpre : preExecute
      { s with nextUuid := s.nextUuid + 2 }
      { id := s.nextUuid, actionType := k, agentId := agent.id
        timestamp := s.clock, payload := payload, signature := none
        correlationId := some (s.nextUuid + 1) }
      agent with ⟨s1, pre⟩
  obtain ⟨p1, p2, p3, p4, p5⟩ := preExecute_proj
    { s with nextUuid := s.nextUuid + 2 }
    { id := s.nextUuid, actionType := k, agentId := agent.id
      timestamp := s.clock, payload := payload, signature := none
      correlationId := some (s.nextUuid + 1) }
    agent
  rw [hpre] at p1 p2 p3 p4 p5
  replace p1 : s1.audit = s.audit := p1
  simp only [hpre]
  by_cases hp : pre.proceed = false
  · rw [if_pos hp]
    by_cases happ : (pre.enforcementResult.requiresApproval &&
        (match pre.enforcementResult.approvalRequest with
         | some ap => ap.status == ApprovalStatus.PENDING
         | none => false)) = true
    · rw [if_pos happ]
      rcases hsub : submitForApproval s1
          { id := s.nextUuid, actionType := k, agentId := agent.id
            timestamp := s.clock, payload := payload, signature := none
            correlationId := some (s.nextUuid + 1) }
          agent with ⟨s2, r⟩
      obtain ⟨q1, q2, q3, q4⟩ := submitForApproval_proj s1
        { id := s.nextUuid, actionType := k, agentId := agent.id
          timestamp := s.clock, payload := payload, signature := none
          correlationId := some (s.nextUuid + 1) }
        agent
      rw [hsub] at q1 q2 q3 q4
      replace q1 : s2.audit = s1.audit := q1
      have hleft : s2.audit.entries = s.audit.entries := by
        rw [q1, p1]
      cases r with
      | ok approval => exact Or.inl hleft
      | error e => exact Or.inl hleft
    · rw [if_neg happ]
      right
      simp only [auditRecordMC, auditRecord, emit]
      rw [p1]
      exact ⟨_, rfl, rfl⟩
  · rw [if_neg hp]
    cases hex : executor (jsOrPayload pre.modifiedPayload payload) with
    | ok v =>
      right
      simp only [auditRecordMC, auditRecord, postExecute, emit]
      rw [p1]
      exact ⟨_, rfl, rfl⟩
    | err m =>
      right
      simp only [auditRecordMC, auditRecord, postExecute, emit]
      rw [p1]
      exact ⟨_, rfl, rfl⟩

theorem UuidFresh_of_proj (s t : MCState) (ha : t.audit = s.audit)
    (he : t.engine.executedActions = s.engine.executedActions)
    (hn : t.nextUuid = s.nextUuid) (h : UuidFresh s) : UuidFresh t := by
  obtain ⟨h1, h2, h3⟩ := h
  refine ⟨?_, ?_, ?_⟩
  · intro id hc
    rw [hn]
    rw [he] at hc
    exact h1 id hc
  · intro i e hee
    rw [hn]
    rw [ha] at hee
    exact h2 i e hee
  · rw [ha]
    exact h3

theorem UuidFresh_step (s : MCState) (op : MCOp) (h : UuidFresh s) :
    UuidFresh (mcStep s op) := by
  cases op with
  | opExecute k agent payload executor =>
    obtain ⟨h1, h2, h3⟩ := h
    obtain ⟨e1, e2, e3⟩ := execute_effects s k agent payload executor
    simp only [mcStep]
    refine ⟨?_, ?_, ?_⟩
    · intro id hc
      rw [e1]
      rcases e2 with hee | hee
      · rw [hee] at hc
        have := h1 id hc
        omega
      · rw [hee] at hc
        rcases natSetAdd_contains_cases _ _ _ hc with hc' | hc'
        · have := h1 id hc'
          omega
        · omega
    · intro i e hee
      rw [e1]
      rcases e3 i e hee with hold | ⟨hid, -⟩
      · have := h2 i e hold
        omega
      · omega
    · rcases execute_entries_shape s k agent payload executor with
        hsh | ⟨e, hsh, hid⟩
      · rw [hsh]
        exact h3
      · rw [hsh]
        simp only [List.map_append, List.map_cons, List.map_nil]
        rw [List.pairwise_append]
        refine ⟨h3, List.pairwise_singleton _ _, ?_⟩
        intro a ha b hb
        simp only [List.mem_singleton] at hb
        subst hb
        rw [hid]
        simp only [List.mem_map] at ha
        obtain ⟨f, hf, hfa⟩ := ha
        obtain ⟨j, hj⟩ := List.getElem?_of_mem hf
        have := h2 j f hj
        omega
  | opApprove a b c d =>
    obtain ⟨g1, g2, g3, g4⟩ := approveW_proj s a b c d
    exact UuidFresh_of_proj s _ g1 (congrArg EngineState.executedActions
      g2) g3 h
  | opReject a b c d =>
    obtain ⟨g1, g2, g3, g4⟩ := rejectW_proj s a b c d
    exact UuidFresh_of_proj s _ g1 (congrArg EngineState.executedActions
      g2) g3 h
  | opRegisterApprover ap =>
    obtain ⟨g1, g2, g3, g4⟩ := registerApprover_proj s ap
    exact UuidFresh_of_proj s _ g1 (congrArg EngineState.executedActions
      g2) g3 h
  | opUnregisterApprover a =>
    exact UuidFresh_of_proj s _ rfl rfl rfl h
  | opEmergencyStop r =>
    obtain ⟨g1, g2, g3, g4⟩ := emergencyStop_proj s r
    exact UuidFresh_of_proj s _ g1 (congrArg EngineState.executedActions
      g2) g3 h

theorem contains_false_of_UuidFresh (s : MCState) (h : UuidFresh s) :
    s.engine.executedActions.contains s.nextUuid = false := by
  cases hc : s.engine.executedActions.contains s.nextUuid with
  | false => rfl
  | true => exact absurd (h.1 s.nextUuid hc) (by omega)

/-- An L0/L1 `execute` by a sufficiently cleared agent from a state with a
fresh uuid supply invokes the executor on the sanitized payload and never
takes the idempotency-rejection branch. -/
theorem execute_runs_executor (s : MCState) (k : ActionType)
    (agent : AgentIdentity) (payload : JsValue)
    (executor : JsValue → ExecutorResult)
    (hsuff : hasSufficientClearance agent.clearanceLevel
      (ACTION_CLEARANCE_MAP k) = true)
    (hk : ACTION_CLEARANCE_MAP k ≠ .L2)
    (hfresh : s.engine.executedActions.contains s.nextUuid = false) :
    (execute s k agent payload executor).1.executorInvocations =
      s.executorInvocations ++
        [jsOrPayload (some (sanitizePayload payload k)) payload] ∧
    RanExecutor (execute s k agent payload executor).2 := by
  have hpre : preExecute
      { s with nextUuid := s.nextUuid + 2 }
      { id := s.nextUuid, actionType := k, agentId := agent.id
        timestamp := s.clock, payload := payload, signature := none
        correlationId := some (s.nextUuid + 1) }
      agent =
      ({ s with nextUuid := s.nextUuid + 2 },
       { proceed := true
         enforcementResult :=
           { allowed := true
             requiredClearance := ACTION_CLEARANCE_MAP k
             agentClearance := agent.clearanceLevel
             requiresApproval := false }
         modifiedPayload := some (sanitizePayload payload k) }) := by
    have hfresh' : s.nextUuid ∉ s.engine.executedActions := by
      simpa using hfresh
    rw [preExecute, validateAction_sufficient_notL2 _ _ agent hsuff hk]
    simp [hfresh, hfresh']
  simp only [execute]
  rw [hpre]
  cases hex : executor (jsOrPayload (some (sanitizePayload payload k))
      payload) with
  | ok v =>
    constructor
    · simp [auditRecordMC, auditRecord, postExecute, emit, hex]
    · simp [auditRecordMC, auditRecord, postExecute, emit, hex,
        RanExecutor]
  | err m =>
    constructor
    · simp [auditRecordMC, auditRecord, postExecute, emit, hex]
    · simp [auditRecordMC, auditRecord, postExecute, emit, hex,
        RanExecutor]

/-- C10: every `execute` call draws a fresh uuid for its action request, so
reachable states keep all recorded action-request ids pairwise distinct and
below the uuid counter (the freshness invariant); and under that invariant
a sufficiently cleared L0/L1 `execute` — identical repetition included —
always invokes the executor again and never reaches the
idempotency-rejection branch. -/
theorem C10_fresh_ids :
    (∀ (config : GovernanceConfig) (wcfg : ApprovalWorkflowConfig)
      (createdAt : Nat) (ops : List MCOp),
      UuidFresh (runOps config wcfg createdAt ops)) ∧
    (∀ (s : MCState) (k : ActionType) (agent : AgentIdentity)
      (payload : JsValue) (executor : JsValue → ExecutorResult),
      UuidFresh s →
      hasSufficientClearance agent.clearanceLevel
        (ACTION_CLEARANCE_MAP k) = true →
      ACTION_CLEARANCE_MAP k ≠ .L2 →
      (execute s k agent payload executor).1.executorInvocations =
        s.executorInvocations ++
          [jsOrPayload (some (sanitizePayload payload k)) payload] ∧
      RanExecutor (execute s k agent payload executor).2) := by
  constructor
  · intro config wcfg createdAt ops
    have hbase : UuidFresh (MCState.init config wcfg createdAt) := by
      refine ⟨?_, ?_, ?_⟩
      · intro id hc
        cases hc
      · intro i e he
        simp [MCState.init, AuditState.init] at he
      · simp [MCState.init, AuditState.init]
    have hinv : ∀ (l : List MCOp) (s : MCState), UuidFresh s →
        UuidFresh (l.foldl mcStep s) := by
      intro l
      induction l with
      | nil => exact fun s hs => hs
      | cons op rest ih => exact fun s hs => ih _ (UuidFresh_step s op hs)
    exact hinv ops _ hbase
  · intro s k agent payload executor hf hsuff hk
    exact execute_runs_executor s k agent payload executor hsuff hk
      (contains_false_of_UuidFresh s hf)

/-- Witness for C10: the freshness invariant at the empty trace and a
repeated identical L0 call both running the executor. -/
theorem C10_fresh_ids_witness :
    hasSufficientClearance l0Agent.clearanceLevel
      (ACTION_CLEARANCE_MAP .READ_PUBLIC) = true ∧
    ((execute mc0 .READ_PUBLIC l0Agent
        (.str "q") okExec).1.executorInvocations =
      mc0.executorInvocations ++
        [jsOrPayload (some (sanitizePayload (.str "q") .READ_PUBLIC))
          (.str "q")] ∧
     RanExecutor (execute mc0 .READ_PUBLIC l0Agent (.str "q") okExec).2) :=
  ⟨by decide,
   C10_fresh_ids.2 mc0 .READ_PUBLIC l0Agent (.str "q") okExec
     (C10_fresh_ids.1 cfg0 defaultWorkflowConfig 0 [])
     (by decide) (by decide)⟩

/-! ## Claim C7 -/

theorem find?_map_set {α : Type} (l : List (Nat × α)) (k : Nat) (v : α)
    (h : l.any (fun p => p.1 == k) = true) :
    (l.map (fun p => if p.1 == k then (k, v) else p)).find?
      (fun p => p.1 == k) = some (k, v) := by
  induction l with
  | nil => cases h
  | cons p ps ih =>
    rw [List.map_cons]
    by_cases hp : (p.1 == k) = true
    · rw [if_pos hp]
      simp
    · rw [if_neg hp]
      rw [List.find?_cons_of_neg _ (by simpa using hp)]
      have h' : ps.any (fun p => p.1 == k) = true := by
        simp only [List.any_cons, hp, Bool.false_or] at h
        exact h
      exact ih h'

theorem alistGet?_set_self {α : Type} (l : List (Nat × α)) (k : Nat)
    (v : α) : alistGet? (alistSet l k v) k = some v := by
  unfold alistGet? alistSet
  by_cases h : l.any (fun p => p.1 == k) = true
  · rw [if_pos h, find?_map_set l k v h]
  · rw [if_neg h]
    have hnone : l.find? (fun p => p.1 == k) = none := by
      rw [List.find?_eq_none]
      intro x hx hxk
      exact h (List.any_eq_true.mpr ⟨x, hx, hxk⟩)
    rw [List.find?_append, hnone]
    simp [List.find?]

/-- Reduction of `approve` under its five guards: the decision is recorded
and the threshold decides between the transition and the unchanged
request. -/
theorem approveW_guards_eq (s : MCState) (approvalId approverId : Nat)
    (sig reason : Option String) (approval : ApprovalRequest)
    (apv : ApproverIdentity)
    (hga : alistGet? s.workflow.pendingApprovals approvalId =
      some approval)
    (hst : approval.status = ApprovalStatus.PENDING)
    (hmem : approval.approvers.contains approverId = true)
    (hreg : alistGet? s.workflow.approvedApprovers approverId = some apv)
    (hdup : ((alistGet? s.workflow.approvalDecisions
      approvalId).getD []).any (fun d => d.approverId == approverId) =
      false) :
    approveW s approvalId approverId sig reason =
      (if checkApprovalThreshold s.workflowConfig
          (approveDecided s approvalId approverId sig reason).workflow
          approvalId then
        (emit (approveTransitioned s approvalId approverId sig reason
            approval)
          (approvedEvent s approvalId approval approverId sig reason),
         .ok (approvedRequest approval approverId s.clock))
      else
        (approveDecided s approvalId approverId sig reason,
         .ok approval)) := by
  have hnst : ¬ approval.status ≠ ApprovalStatus.PENDING :=
    not_not_intro hst
  have hnmem : ¬ ¬ approval.approvers.contains approverId = true :=
    not_not_intro hmem
  simp only [approveW, hga, hreg, hdup]
  rw [if_neg hnst, if_neg hnmem, if_neg (by simp [hdup])]
  rfl

/-- C7: a successful `approve` call finds the request `PENDING`, records
exactly one more affirmative decision, leaves the chosen-approver set
unchanged, and moves the request to `APPROVED` exactly when the new
affirmative count equals the chosen-approver set size (unanimous mode) or
reaches `minApprovers` (otherwise). -/
theorem C7_approval_threshold (s : MCState) (approvalId approverId : Nat)
    (sig reason : Option String)
    (hok : isOkB (approveW s approvalId approverId sig reason).2 = true) :
    approvalStatusIn s approvalId = some .PENDING ∧
    chosenApprovers (approveW s approvalId approverId sig reason).1
      approvalId = chosenApprovers s approvalId ∧
    affirmCount (approveW s approvalId approverId sig reason).1 approvalId
      = affirmCount s approvalId + 1 ∧
    (approvalStatusIn (approveW s approvalId approverId sig reason).1
        approvalId = some .APPROVED ↔
      (if s.workflowConfig.requireUnanimous then
        affirmCount (approveW s approvalId approverId sig reason).1
          approvalId = (chosenApprovers s approvalId).length
      else
        s.workflowConfig.minApprovers ≤
          affirmCount (approveW s approvalId approverId sig reason).1
            approvalId)) := by
  rcases hga : alistGet? s.workflow.pendingApprovals approvalId with
    _ | approval
  · simp [approveW, hga, isOkB] at hok
  by_cases hst : approval.status = ApprovalStatus.PENDING
  swap
  · simp only [approveW, hga] at hok
    rw [if_pos hst] at hok
    simp [isOkB] at hok
  by_cases hmem : approval.approvers.contains approverId = true
  swap
  · simp only [approveW, hga] at hok
    rw [if_neg (not_not_intro hst), if_pos hmem] at hok
    simp [isOkB] at hok
  rcases hreg : alistGet? s.workflow.approvedApprovers approverId with
    _ | apv
  · simp only [approveW, hga, hreg] at hok
    rw [if_neg (not_not_intro hst), if_neg (not_not_intro hmem)] at hok
    simp [isOkB] at hok
  by_cases hdup : ((alistGet? s.workflow.approvalDecisions
      approvalId).getD []).any (fun d => d.approverId == approverId) =
      true
  · simp only [approveW, hga, hreg] at hok
    rw [if_neg (not_not_intro hst), if_neg (not_not_intro hmem),
      if_pos hdup] at hok
    simp [isOkB] at hok
  have hdup' : ((alistGet? s.workflow.approvalDecisions
      approvalId).getD []).any (fun d => d.approverId == approverId) =
      false := by
    simpa using hdup
  rw [approveW_guards_eq s approvalId approverId sig reason approval apv
    hga hst hmem hreg hdup']
  have hstatus : approvalStatusIn s approvalId = some .PENDING := by
    simp [approvalStatusIn, hga, hst]
  have haffirmDecided :
      affirmCount (approveDecided s approvalId approverId sig reason)
        approvalId = affirmCount s approvalId + 1 := by
    simp [affirmCount, approveDecided, alistGet?_set_self, newDecisions,
      List.filter_append]
  have hchosenDecided :
      chosenApprovers (approveDecided s approvalId approverId sig reason)
        approvalId = chosenApprovers s approvalId := by
    simp [chosenApprovers, approveDecided]
  have haffirmTrans :
      affirmCount (emit (approveTransitioned s approvalId approverId sig
        reason approval) (approvedEvent s approvalId approval approverId
        sig reason)) approvalId =
      affirmCount (approveDecided s approvalId approverId sig reason)
        approvalId := by
    simp [affirmCount, emit, approveTransitioned, approveDecided]
  have hthreshold : checkApprovalThreshold s.workflowConfig
      (approveDecided s approvalId approverId sig reason).workflow
      approvalId = true ↔
      (if s.workflowConfig.requireUnanimous then
        affirmCount (approveDecided s approvalId approverId sig reason)
          approvalId = (chosenApprovers s approvalId).length
      else
        s.workflowConfig.minApprovers ≤
          affirmCount (approveDecided s approvalId approverId sig reason)
            approvalId) := by
    by_cases huna : s.workflowConfig.requireUnanimous = true
    · simp [checkApprovalThreshold, huna, approveDecided,
        alistGet?_set_self, hga, affirmCount, chosenApprovers,
        newDecisions, List.filter_append]
    · have huna' : s.workflowConfig.requireUnanimous = false := by
        simpa using huna
      simp [checkApprovalThreshold, huna', approveDecided,
        alistGet?_set_self, hga, affirmCount, chosenApprovers,
        newDecisions, List.filter_append]
  by_cases hth : checkApprovalThreshold s.workflowConfig
      (approveDecided s approvalId approverId sig reason).workflow
      approvalId = true
  · rw [if_pos hth]
    refine ⟨hstatus, ?_, ?_, ?_⟩
    · simp [chosenApprovers, emit, approveTransitioned, approveDecided,
        alistGet?_set_self, approvedRequest, hga]
    · rw [haffirmTrans]
      exact haffirmDecided
    · constructor
      · intro _
        have hrhs := hthreshold.mp hth
        by_cases huna : s.workflowConfig.requireUnanimous = true
        · rw [if_pos huna] at hrhs ⊢
          rw [haffirmTrans]
          exact hrhs
        · rw [if_neg huna] at hrhs ⊢
          rw [haffirmTrans]
          exact hrhs
      · intro _
        simp [approvalStatusIn, emit, approveTransitioned,
          alistGet?_set_self, approvedRequest]
  · rw [if_neg hth]
    refine ⟨hstatus, hchosenDecided, haffirmDecided, ?_⟩
    constructor
    · intro hlhs
      rw [show approvalStatusIn (approveDecided s approvalId approverId
          sig reason) approvalId = some approval.status from by
          simp [approvalStatusIn, approveDecided, hga]] at hlhs
      rw [hst] at hlhs
      simp at hlhs
    · intro hrhs
      exact absurd (hthreshold.mpr hrhs) hth

/-- Witness for C7 at the first of two unanimous approvals. -/
theorem C7_approval_threshold_witness :
    isOkB (approveW c7State 0 7 none none).2 = true ∧
    (approvalStatusIn c7State 0 = some .PENDING ∧
     chosenApprovers (approveW c7State 0 7 none none).1 0 =
       chosenApprovers c7State 0 ∧
     affirmCount (approveW c7State 0 7 none none).1 0 =
       affirmCount c7State 0 + 1 ∧
     (approvalStatusIn (approveW c7State 0 7 none none).1 0 =
         some .APPROVED ↔
       (if c7State.workflowConfig.requireUnanimous then
         affirmCount (approveW c7State 0 7 none none).1 0 =
           (chosenApprovers c7State 0).length
       else
         c7State.workflowConfig.minApprovers ≤
           affirmCount (approveW c7State 0 7 none none).1 0))) :=
  ⟨rfl, C7_approval_threshold c7State 0 7 none none rfl⟩

end Jarvis

